import Mathlib

/-
Verification of the step-execution orchestrator (SolanaStepExecutor.executeStep
and MultichainExecutionManager.execute) against its specification.

The executors are embedded shallowly: each collaborator call (balance guard,
quote reconciler, signing agent, chain RPC, receiving-chain waiter) is an
oracle value in an environment record, the mutable execution record is passed
as explicit state, and every externally visible action (collaborator call,
ledger transition) is recorded in an event trace.
-/

namespace Sdk

/-- Status of a Process (one phase of a step's execution). -/
inductive ProcessStatus
  | STARTED
  | ACTION_REQUIRED
  | PENDING
  | DONE
  | FAILED
  deriving DecidableEq

/-- Overall status of an Execution record. -/
inductive ExecStatus
  | PENDING
  | DONE
  | FAILED
  deriving DecidableEq

/-- Error taxonomy codes. The executors use `TransactionUnprepared` and
`TransactionFailed`; collaborators produce `InsufficientFunds`; `Other n`
covers the rest of the open code set (including the generic/unknown code). -/
inductive LiFiErrorCode
  | InsufficientFunds
  | TransactionUnprepared
  | TransactionFailed
  | Other (n : Nat)
  deriving DecidableEq

/-- Classified error triple `{code, message, htmlMessage}`. -/
structure LifiError where
  code : LiFiErrorCode
  message : String
  htmlMessage : Option String := none
  deriving DecidableEq

/-- A Process: the unit of resumable state inside an Execution. The field set
is the union of what the two executors write (the Solana executor uses
`error`/`substatus`, the multichain executor uses
`errorMessage`/`htmlErrorMessage`/`errorCode`/`message`). -/
structure Process where
  ident : String
  status : ProcessStatus
  txHash : Option String := none
  txLink : Option String := none
  substatus : Option String := none
  substatusMessage : Option String := none
  error : Option LifiError := none
  message : Option String := none
  errorMessage : Option String := none
  htmlErrorMessage : Option String := none
  errorCode : Option LiFiErrorCode := none
  deriving DecidableEq

/-- The Execution record owned by one step: overall status, the ordered list of
Processes, and the summary fields merged in when the step concludes. -/
structure Execution where
  status : ExecStatus
  process : List Process
  fromAmount : Option String := none
  toAmount : Option String := none
  toToken : Option String := none
  gasAmount : Option String := none
  gasAmountUSD : Option String := none
  gasPrice : Option String := none
  gasToken : Option String := none
  gasUsed : Option String := none
  deriving DecidableEq

/-- Patch argument of `updateProcess`; a `none` field is "not provided". -/
structure ProcessPatch where
  txHash : Option String := none
  txLink : Option String := none
  substatus : Option String := none
  substatusMessage : Option String := none
  error : Option LifiError := none
  message : Option String := none
  errorMessage : Option String := none
  htmlErrorMessage : Option String := none
  errorCode : Option LiFiErrorCode := none
  deriving DecidableEq

/-- Patch argument of `updateExecution`; a `none` field is "not provided". -/
structure ExecPatch where
  fromAmount : Option String := none
  toAmount : Option String := none
  toToken : Option String := none
  gasAmount : Option String := none
  gasAmountUSD : Option String := none
  gasPrice : Option String := none
  gasToken : Option String := none
  gasUsed : Option String := none
  deriving DecidableEq

/-- Merge of one optional patch field over the old value: a provided value
replaces, an absent one keeps. -/
def mergeOpt {α : Type} (new old : Option α) : Option α :=
  match new with
  | some v => some v
  | none => old

/-- Merging a patch into a Process (field-wise `mergeOpt`). -/
def applyPatch (p : Process) (q : ProcessPatch) : Process :=
  { p with
    txHash := mergeOpt q.txHash p.txHash
    txLink := mergeOpt q.txLink p.txLink
    substatus := mergeOpt q.substatus p.substatus
    substatusMessage := mergeOpt q.substatusMessage p.substatusMessage
    error := mergeOpt q.error p.error
    message := mergeOpt q.message p.message
    errorMessage := mergeOpt q.errorMessage p.errorMessage
    htmlErrorMessage := mergeOpt q.htmlErrorMessage p.htmlErrorMessage
    errorCode := mergeOpt q.errorCode p.errorCode }

/-- Setting a status and merging a patch, the body of `updateProcess`. -/
def setAndPatch (p : Process) (st : ProcessStatus) (q : ProcessPatch) : Process :=
  applyPatch { p with status := st } q

/-- Modelled from the spec: the Process Ledger (Status Manager, §4.1) is not
under src/. `initExecutionObject` creates the execution record if absent and is
idempotent: on a step that already has one it returns it unchanged. -/
def initExecutionObject (e : Option Execution) : Execution :=
  match e with
  | some ex => ex
  | none => { status := ExecStatus.PENDING, process := [] }

/-- Modelled from the spec: the Process Ledger's `findOrCreateProcess` (§4.1)
returns the existing Process for the key or creates one with the given
initial status, appending it to the list. -/
def findOrCreateProcess (ex : Execution) (i : String) (init : ProcessStatus) :
    Process × Execution :=
  match ex.process.find? (fun p => p.ident == i) with
  | some p => (p, ex)
  | none =>
      let p : Process := { ident := i, status := init }
      (p, { ex with process := ex.process ++ [p] })

/-- In-place update of every Process with the given key. -/
def updateProcessList (l : List Process) (i : String) (st : ProcessStatus)
    (q : ProcessPatch) : List Process :=
  l.map (fun p => if p.ident == i then setAndPatch p st q else p)

/-- Modelled from the spec: the Process Ledger's `updateProcess` (§4.1) sets the
status, merges the patch into the Process in place, and returns the updated
Process (creating it when the key is absent, so the call is total). -/
def updateProcess (ex : Execution) (i : String) (st : ProcessStatus)
    (q : ProcessPatch) : Process × Execution :=
  match ex.process.find? (fun p => p.ident == i) with
  | some p =>
      (setAndPatch p st q, { ex with process := updateProcessList ex.process i st q })
  | none =>
      let p := applyPatch { ident := i, status := st } q
      (p, { ex with process := ex.process ++ [p] })

/-- Modelled from the spec: the Process Ledger's `updateExecution` (§4.1) sets
the overall status and merges the summary fields. -/
def updateExecution (ex : Execution) (st : ExecStatus) (q : ExecPatch) : Execution :=
  { ex with
    status := st
    fromAmount := mergeOpt q.fromAmount ex.fromAmount
    toAmount := mergeOpt q.toAmount ex.toAmount
    toToken := mergeOpt q.toToken ex.toToken
    gasAmount := mergeOpt q.gasAmount ex.gasAmount
    gasAmountUSD := mergeOpt q.gasAmountUSD ex.gasAmountUSD
    gasPrice := mergeOpt q.gasPrice ex.gasPrice
    gasToken := mergeOpt q.gasToken ex.gasToken
    gasUsed := mergeOpt q.gasUsed ex.gasUsed }

/-- Chain reference data: id plus the first block-explorer URL. -/
structure ChainMeta where
  id : Nat
  blockExplorerUrl : String
  deriving DecidableEq

/-- Events recorded by a run: collaborator calls and ledger transitions. -/
inductive Event
  | balanceCheck
  | allowanceCheck
  | getStepTransactionCall
  | stepComparisonCall
  | hookCall
  | send
  | confirm (txHash : String)
  | waitReceiving (txHash : String)
  | getTransaction (txHash : String)
  | txWait (txHash : String)
  | waitDestination (txHash : Option String)
  | parseReceiptCall
  | findProcess (ident : String) (init : ProcessStatus)
  | setProcess (ident : String) (st : ProcessStatus)
  | setExecution (st : ExecStatus)
  deriving DecidableEq

/-- Status of the Process with the given key inside an Execution. -/
def execProcessStatus (ex : Execution) (i : String) : Option ProcessStatus :=
  (ex.process.find? (fun p => p.ident == i)).map Process.status

/-- The txHash of the Process with the given key inside an Execution. -/
def execProcessTxHash (ex : Execution) (i : String) : Option String :=
  (ex.process.find? (fun p => p.ident == i)).bind Process.txHash

/-- The error triple of the Process with the given key inside an Execution. -/
def execProcessError (ex : Execution) (i : String) : Option LifiError :=
  (ex.process.find? (fun p => p.ident == i)).bind Process.error

/-- The errorMessage of the Process with the given key inside an Execution. -/
def execProcessErrorMessage (ex : Execution) (i : String) : Option String :=
  (ex.process.find? (fun p => p.ident == i)).bind Process.errorMessage

/-- The errorCode of the Process with the given key inside an Execution. -/
def execProcessErrorCode (ex : Execution) (i : String) : Option LiFiErrorCode :=
  (ex.process.find? (fun p => p.ident == i)).bind Process.errorCode

end Sdk

namespace Sdk

/-! Solana step executor (src/src/core/Solana/SolanaStepExecutor.ts). -/

/-- A transaction request: the opaque base64 payload (`data`) may be absent. -/
structure TransactionRequest where
  data : Option String := none
  deriving DecidableEq

/-- A step as seen by the Solana executor: chain ids of the action, the
optional prepared transaction request, and the execution record. -/
structure Step where
  fromChainId : Nat
  toChainId : Nat
  transactionRequest : Option TransactionRequest := none
  execution : Option Execution := none
  deriving DecidableEq

/-- The execution record of a step (fresh when absent). -/
def Step.exec (s : Step) : Execution :=
  initExecutionObject s.execution

/-- Replacing a step's execution record. -/
def Step.withExec (s : Step) (ex : Execution) : Step :=
  { s with execution := some ex }

/-- Ledger `findOrCreateProcess` acting through a step. -/
def findOrCreateProcessS (s : Step) (i : String) (init : ProcessStatus) :
    Process × Step :=
  let r := findOrCreateProcess s.exec i init
  (r.1, s.withExec r.2)

/-- Ledger `updateProcess` acting through a step. -/
def updateProcessS (s : Step) (i : String) (st : ProcessStatus)
    (q : ProcessPatch) : Process × Step :=
  let r := updateProcess s.exec i st q
  (r.1, s.withExec r.2)

/-- Ledger `updateExecution` acting through a step. -/
def updateExecutionS (s : Step) (st : ExecStatus) (q : ExecPatch) : Step :=
  s.withExec (updateExecution s.exec st q)

/-- Status of a step's Process with the given key. -/
def Step.processStatus (s : Step) (i : String) : Option ProcessStatus :=
  execProcessStatus s.exec i

/-- Error of a step's Process with the given key. -/
def Step.processError (s : Step) (i : String) : Option LifiError :=
  execProcessError s.exec i

/-- Lines 81-84 of SolanaStepExecutor.executeStep: the compared step returned
by the Quote Reconciler replaces the current step, but the current execution
record is kept. -/
def adoptComparedStep (cur compared : Step) : Step :=
  { compared with execution := cur.execution }

/-- Result of the customization hook (`updateTransactionRequestHook`): the
returned object's `data` key may be absent (`none`), or present with an
undefined (`some none`) or defined (`some (some d)`) payload; a present key
overrides the original on the spread merge of lines 115-118. -/
structure HookResult where
  data : Option (Option String) := none
  deriving DecidableEq

/-- The status response of the Receiving-Chain Waiter
(`waitForReceivingTransaction`), flattened: `sending` and `receiving` legs
plus status/substatus. -/
structure StatusResponse where
  status : String
  substatus : Option String := none
  substatusMessage : Option String := none
  sendingAmount : Option String := none
  gasAmount : Option String := none
  gasAmountUSD : Option String := none
  gasPrice : Option String := none
  gasToken : Option String := none
  gasUsed : Option String := none
  receivingTxHash : Option String := none
  receivingAmount : Option String := none
  receivingToken : Option String := none
  deriving DecidableEq

/-- Environment of one `executeStep` invocation: the outcome of every
collaborator call the executor can make, plus chain reference data. -/
structure SolanaEnv where
  getChainById : Nat → ChainMeta
  balanceResult : Except LifiError Unit
  getStepTransactionResult : Except LifiError Step
  stepComparisonResult : Except LifiError Step
  hook : Option HookResult := none
  sendResult : Except LifiError String
  confirmErr : Except LifiError (Option String)
  receivingResult : Except LifiError StatusResponse
  failedMessage : String := ""

/-- Modelled from the spec: the Error Classifier (`parseError`, §4.3) is not
under src/; it normalizes failures into `{code, message, htmlMessage}` and
preserves an existing classification, so on the already-classified errors of
this model it is the identity. -/
def parseError (e : LifiError) : LifiError := e

/-- Modelled from the spec: the substatus message helper (`getSubstatusMessage`
from utils, not under src/) derives a user-facing message from status and
substatus. -/
def getSubstatusMessage (status : String) (substatus : Option String) : String :=
  status ++ ":" ++ (match substatus with | some s => s | none => "")

/-- Result of one `executeStep` run: the returned step or the thrown error,
the final state of the step, and the event trace. -/
structure SolRun where
  result : Except LifiError Step
  finalStep : Step
  trace : List Event

/-- Outcome of the send phase (the try block of lines 56-169): an early return
at the interaction gate, a thrown error, or normal completion. -/
inductive SendOut
  | early (s : Step) (tr : List Event)
  | thrown (e : LifiError) (s : Step) (tr : List Event)
  | ok (s : Step) (p : Process) (tr : List Event)

/-- Lines 153-169: await confirmation of the transaction signature at the
`confirmed` commitment level; a non-empty on-chain `err` is a
`TransactionFailed`; for a bridge execution the send Process is set `DONE`. -/
def confirmPart (env : SolanaEnv) (isBridge : Bool) (pt : String) (s : Step)
    (p : Process) (h : String) (tr : List Event) : SendOut :=
  match env.confirmErr with
  | Except.error e => SendOut.thrown e s (tr ++ [Event.confirm h])
  | Except.ok (some errStr) =>
      SendOut.thrown
        { code := LiFiErrorCode.TransactionFailed
          message := "Transaction failed: " ++ errStr
          htmlMessage := none }
        s (tr ++ [Event.confirm h])
  | Except.ok none =>
      if isBridge then
        let r := updateProcessS s pt ProcessStatus.DONE {}
        SendOut.ok r.2 r.1 (tr ++ [Event.confirm h, Event.setProcess pt ProcessStatus.DONE])
      else
        SendOut.ok s p (tr ++ [Event.confirm h])

/-- Lines 87-151, after quote reconciliation: the unprepared check, the
ACTION_REQUIRED gate with the interaction flag, the customization hook and its
merge, the second unprepared check, broadcast, and the PENDING transition,
then confirmation. -/
def afterReconcile (env : SolanaEnv) (allowUserInteraction : Bool)
    (isBridge : Bool) (fromChain : ChainMeta) (pt : String) (s : Step)
    (tr : List Event) : SendOut :=
  match s.transactionRequest.bind TransactionRequest.data with
  | none =>
      SendOut.thrown
        { code := LiFiErrorCode.TransactionUnprepared
          message := "Unable to prepare transaction."
          htmlMessage := none } s tr
  | some d0 =>
      let r1 := updateProcessS s pt ProcessStatus.ACTION_REQUIRED {}
      let tr1 := tr ++ [Event.setProcess pt ProcessStatus.ACTION_REQUIRED]
      if allowUserInteraction = false then SendOut.early r1.2 tr1
      else
        let merged : Option String :=
          match env.hook with
          | none => some d0
          | some hr =>
              match hr.data with
              | none => some d0
              | some v => v
        let tr2 :=
          match env.hook with
          | none => tr1
          | some _ => tr1 ++ [Event.hookCall]
        match merged with
        | none =>
            SendOut.thrown
              { code := LiFiErrorCode.TransactionUnprepared
                message := "Unable to prepare transaction."
                htmlMessage := none } r1.2 tr2
        | some _ =>
            match env.sendResult with
            | Except.error e => SendOut.thrown e r1.2 (tr2 ++ [Event.send])
            | Except.ok h =>
                let r2 := updateProcessS r1.2 pt ProcessStatus.PENDING
                  { txHash := some h
                    txLink := some (fromChain.blockExplorerUrl ++ "tx/" ++ h) }
                confirmPart env isBridge pt r2.2 r2.1 h
                  (tr2 ++ [Event.send, Event.setProcess pt ProcessStatus.PENDING])

/-- Lines 56-169, the guarded send phase: resume path when the Process already
carries a txHash, otherwise STARTED, balance check, quote reconciliation when
no transaction request is cached, then `afterReconcile`. -/
def sendPhase (env : SolanaEnv) (allowUserInteraction : Bool) (isBridge : Bool)
    (fromChain : ChainMeta) (pt : String) (s0 : Step) (p0 : Process) : SendOut :=
  match p0.txHash with
  | some h => confirmPart env isBridge pt s0 p0 h []
  | none =>
      let r1 := updateProcessS s0 pt ProcessStatus.STARTED {}
      let tr1 := [Event.setProcess pt ProcessStatus.STARTED, Event.balanceCheck]
      match env.balanceResult with
      | Except.error e => SendOut.thrown e r1.2 tr1
      | Except.ok _ =>
          match r1.2.transactionRequest with
          | none =>
              match env.getStepTransactionResult with
              | Except.error e =>
                  SendOut.thrown e r1.2 (tr1 ++ [Event.getStepTransactionCall])
              | Except.ok _updatedStep =>
                  match env.stepComparisonResult with
                  | Except.error e =>
                      SendOut.thrown e r1.2
                        (tr1 ++ [Event.getStepTransactionCall, Event.stepComparisonCall])
                  | Except.ok compared =>
                      afterReconcile env allowUserInteraction isBridge fromChain pt
                        (adoptComparedStep r1.2 compared)
                        (tr1 ++ [Event.getStepTransactionCall, Event.stepComparisonCall])
          | some _ =>
              afterReconcile env allowUserInteraction isBridge fromChain pt r1.2 tr1

/-- Lines 198-248, the body of the receiving phase: the Receiving-Chain
Waiter is keyed by the send Process's txHash (a missing hash throws); success
copies substatus/amount/gas fields and marks Process and Execution DONE;
failure marks both FAILED (with a contextual TransactionFailed error) and
rethrows the original error. -/
def receivingCore (env : SolanaEnv) (toChain : ChainMeta)
    (processTxHash : Option String) (p1 : Process) (s1 : Step)
    (tr1 : List Event) : SolRun :=
  match processTxHash with
  | none =>
      let e : LifiError :=
        { code := LiFiErrorCode.Other 0
          message := "Transaction hash is undefined."
          htmlMessage := none }
      let rF := updateProcessS s1 p1.ident ProcessStatus.FAILED
        { error := some
            { code := LiFiErrorCode.TransactionFailed
              message := "Failed while waiting for receiving chain."
              htmlMessage := some env.failedMessage } }
      let sF := updateExecutionS rF.2 ExecStatus.FAILED {}
      { result := Except.error e
        finalStep := sF
        trace := tr1 ++ [Event.setProcess p1.ident ProcessStatus.FAILED,
          Event.setExecution ExecStatus.FAILED] }
  | some h =>
      match env.receivingResult with
      | Except.error e =>
          let rF := updateProcessS s1 p1.ident ProcessStatus.FAILED
            { error := some
                { code := LiFiErrorCode.TransactionFailed
                  message := "Failed while waiting for receiving chain."
                  htmlMessage := some env.failedMessage } }
          let sF := updateExecutionS rF.2 ExecStatus.FAILED {}
          { result := Except.error e
            finalStep := sF
            trace := tr1 ++ [Event.waitReceiving h,
              Event.setProcess p1.ident ProcessStatus.FAILED,
              Event.setExecution ExecStatus.FAILED] }
      | Except.ok sr =>
          let rD := updateProcessS s1 p1.ident ProcessStatus.DONE
            { substatus := sr.substatus
              substatusMessage := some
                (match sr.substatusMessage with
                 | some m => m
                 | none => getSubstatusMessage sr.status sr.substatus)
              txHash := sr.receivingTxHash
              txLink := some (toChain.blockExplorerUrl ++ "tx/" ++
                (match sr.receivingTxHash with | some x => x | none => "undefined")) }
          let sD := updateExecutionS rD.2 ExecStatus.DONE
            { fromAmount := sr.sendingAmount
              toAmount := sr.receivingAmount
              toToken := sr.receivingToken
              gasAmount := sr.gasAmount
              gasAmountUSD := sr.gasAmountUSD
              gasPrice := sr.gasPrice
              gasToken := sr.gasToken
              gasUsed := sr.gasUsed }
          { result := Except.ok sD
            finalStep := sD
            trace := tr1 ++ [Event.waitReceiving h,
              Event.setProcess p1.ident ProcessStatus.DONE,
              Event.setExecution ExecStatus.DONE] }

/-- Lines 189-197: the receiving phase is entered with the send Process's
txHash; only for a bridge execution is the `RECEIVING_CHAIN` Process created
(seeded PENDING), otherwise the send Process itself is the target of the
receiving-phase transitions. -/
def receivingPhase (env : SolanaEnv) (toChain : ChainMeta) (isBridge : Bool)
    (s0 : Step) (p0 : Process) : SolRun :=
  if isBridge then
    let r := findOrCreateProcessS s0 "RECEIVING_CHAIN" ProcessStatus.PENDING
    receivingCore env toChain p0.txHash r.1 r.2
      [Event.findProcess "RECEIVING_CHAIN" ProcessStatus.PENDING]
  else
    receivingCore env toChain p0.txHash p0 s0 []

/-- Lines 46-47: the send-phase Process type, `CROSS_CHAIN` for a bridge
execution (distinct resolved chain ids) and `SWAP` otherwise. -/
def processType (env : SolanaEnv) (s : Step) : String :=
  if (env.getChainById s.fromChainId).id != (env.getChainById s.toChainId).id
  then "CROSS_CHAIN" else "SWAP"

/-- Line 41: the step with its execution record initialized. -/
def withInitExec (s : Step) : Step :=
  { s with execution := some (initExecutionObject s.execution) }

/-- Lines 41 and 50-53: the send-phase Process as found or created before the
phase runs, together with the step carrying the initialized execution. -/
def initialSendState (env : SolanaEnv) (s : Step) : Process × Step :=
  findOrCreateProcessS (withInitExec s) (processType env s) ProcessStatus.STARTED

/-- The send-phase Process as found or created at lines 50-53, before the
phase runs. -/
def initialSendProcess (env : SolanaEnv) (s : Step) : Process :=
  (initialSendState env s).1

/-- Trace of a send-phase outcome. -/
def SendOut.trace : SendOut → List Event
  | SendOut.early _ tr => tr
  | SendOut.thrown _ _ tr => tr
  | SendOut.ok _ _ tr => tr

namespace SolanaStepExecutor

/-- SolanaStepExecutor.executeStep (lines 40-252): execution initialization,
chain resolution, the guarded send phase with its catch block (FAILED marking
of Process and Execution, then rethrow of the classified error), and the
receiving phase. -/
def executeStep (env : SolanaEnv) (allowUserInteraction : Bool) (s0 : Step) :
    SolRun :=
  let fromChain := env.getChainById s0.fromChainId
  let toChain := env.getChainById s0.toChainId
  let isBridge := fromChain.id != toChain.id
  let pt := processType env s0
  let r0 := initialSendState env s0
  let p0 := r0.1
  let s2 := r0.2
  let tr0 := [Event.findProcess pt ProcessStatus.STARTED]
  if p0.status != ProcessStatus.DONE then
    match sendPhase env allowUserInteraction isBridge fromChain pt s2 p0 with
    | SendOut.early s tr =>
        { result := Except.ok s, finalStep := s, trace := tr0 ++ tr }
    | SendOut.thrown e s tr =>
        let err := parseError e
        let rF := updateProcessS s pt ProcessStatus.FAILED { error := some err }
        let sF := updateExecutionS rF.2 ExecStatus.FAILED {}
        { result := Except.error err
          finalStep := sF
          trace := tr0 ++ tr ++ [Event.setProcess pt ProcessStatus.FAILED,
            Event.setExecution ExecStatus.FAILED] }
    | SendOut.ok s p tr =>
        let r := receivingPhase env toChain isBridge s p
        { result := r.result, finalStep := r.finalStep, trace := tr0 ++ tr ++ r.trace }
  else
    let r := receivingPhase env toChain isBridge s2 p0
    { result := r.result, finalStep := r.finalStep, trace := tr0 ++ r.trace }

end SolanaStepExecutor

/-! Multichain (EVM) execution manager
(src/src/executionFiles/bridges/multichain.execute.ts). -/

/-- An ethers transaction response (only the hash is read). -/
structure TxResponse where
  hash : String
  deriving DecidableEq

/-- The destination-chain receipt (only the transactionHash is read). -/
structure DestReceipt where
  transactionHash : String
  deriving DecidableEq

/-- multichain.parseReceipt's result: settled amounts. -/
structure ParsedReceipt where
  fromAmount : Option String := none
  toAmount : Option String := none
  deriving DecidableEq

/-- Raw failures in the EVM executor: `replaced h` models an ethers error with
code TRANSACTION_REPLACED and a replacement transaction of hash `h` attached
(an error with that code but no replacement attached is modelled as `err` or
`raw`); `err` is an already-classified error object; `raw m` is a thrown
plain value carrying only a message (the executor throws
`crossProcess.errorMessage`, a string). -/
inductive MError
  | replaced (replacementHash : String)
  | err (e : LifiError)
  | raw (message : String)
  deriving DecidableEq

/-- Modelled from the spec: `parseWalletError` (Error Classifier, §4.3) is not
under src/; it preserves an existing classification and message and falls back
to a generic code otherwise. -/
def parseWalletError : MError → LifiError
  | MError.err e => e
  | MError.raw m => { code := LiFiErrorCode.Other 0, message := m, htmlMessage := none }
  | MError.replaced _ =>
      { code := LiFiErrorCode.Other 0, message := "TRANSACTION_REPLACED", htmlMessage := none }

/-- The `e.code` read by the destination-wait failure patch (line 135):
classified errors expose their code, other thrown values none. -/
def MError.codeOf : MError → Option LiFiErrorCode
  | MError.err e => some e.code
  | MError.raw _ => none
  | MError.replaced _ => none

/-- A step as seen by the EVM executor: action fields read by the allowance
check plus the execution record. -/
structure MStep where
  fromChainId : Nat
  toChainId : Nat
  fromTokenAddress : String
  toTokenAddress : String
  fromAmount : String
  approvalAddress : String
  execution : Option Execution := none
  deriving DecidableEq

/-- ethers' constants.AddressZero, the native-token marker. -/
def AddressZero : String := "0x0000000000000000000000000000000000000000"

/-- Environment of one `execute` invocation: the outcome of every collaborator
call the EVM executor can make, plus chain reference data. -/
structure MultichainEnv where
  getChainById : Nat → ChainMeta
  allowanceResult : Except MError Unit
  balanceResult : Except MError Unit
  getStepTransactionResult : Except MError (Option TransactionRequest)
  sendResult : Except MError TxResponse
  getTransactionResult : Except MError TxResponse
  waitResult : Except MError Unit
  destinationResult : Except MError DestReceipt
  parseReceiptResult : Except MError ParsedReceipt

/-- Result of one `execute` run: the returned Execution or the thrown error,
the final state of the step, and the event trace. -/
structure MRun where
  result : Except MError Execution
  finalStep : MStep
  trace : List Event

/-- Status of a step's Process with the given key. -/
def MStep.processStatus (st : MStep) (i : String) : Option ProcessStatus :=
  execProcessStatus (initExecutionObject st.execution) i

/-- The txHash of a step's Process with the given key. -/
def MStep.processTxHash (st : MStep) (i : String) : Option String :=
  execProcessTxHash (initExecutionObject st.execution) i

/-- The errorMessage of a step's Process with the given key. -/
def MStep.processErrorMessage (st : MStep) (i : String) : Option String :=
  execProcessErrorMessage (initExecutionObject st.execution) i

/-- The errorCode of a step's Process with the given key. -/
def MStep.processErrorCode (st : MStep) (i : String) : Option LiFiErrorCode :=
  execProcessErrorCode (initExecutionObject st.execution) i

/-- Outcome of the try block of lines 60-94: an early return at the
interaction gate, a thrown error (to be caught at line 95), or a successfully
awaited transaction. -/
inductive TryOut
  | earlyRet (ex : Execution) (tr : List Event)
  | thrown (e : MError) (ex : Execution) (tr : List Event)
  | okDone (ex : Execution) (tr : List Event)

/-- Trace of a try-block outcome. -/
def TryOut.trace : TryOut → List Event
  | TryOut.earlyRet _ tr => tr
  | TryOut.thrown _ _ tr => tr
  | TryOut.okDone _ tr => tr

/-- Lines 60-94: resume path loading the existing transaction by hash,
otherwise balance check, transaction construction (failing the Process and
throwing the Process's errorMessage when no transactionRequest is returned),
the ACTION_REQUIRED gate with the continuation flag, broadcast, the PENDING
transition, then awaiting the transaction. -/
def sendTry (env : MultichainEnv) (shouldContinue : Bool) (fromChain : ChainMeta)
    (crossProcess : Process) (ex1 : Execution) : TryOut :=
  match crossProcess.txHash with
  | some h =>
      match env.getTransactionResult with
      | Except.error e => TryOut.thrown e ex1 [Event.getTransaction h]
      | Except.ok tx =>
          match env.waitResult with
          | Except.error e =>
              TryOut.thrown e ex1 [Event.getTransaction h, Event.txWait tx.hash]
          | Except.ok _ =>
              TryOut.okDone ex1 [Event.getTransaction h, Event.txWait tx.hash]
  | none =>
      match env.balanceResult with
      | Except.error e => TryOut.thrown e ex1 [Event.balanceCheck]
      | Except.ok _ =>
          match env.getStepTransactionResult with
          | Except.error e =>
              TryOut.thrown e ex1 [Event.balanceCheck, Event.getStepTransactionCall]
          | Except.ok none =>
              let r2 := updateProcess ex1 "crossProcess" ProcessStatus.FAILED
                { errorMessage := some "Unable to prepare Transaction" }
              TryOut.thrown (MError.raw (match r2.1.errorMessage with | some m => m | none => ""))
                r2.2
                [Event.balanceCheck, Event.getStepTransactionCall,
                  Event.setProcess "crossProcess" ProcessStatus.FAILED]
          | Except.ok (some _txReq) =>
              let r3 := updateProcess ex1 "crossProcess" ProcessStatus.ACTION_REQUIRED {}
              let trA := [Event.balanceCheck, Event.getStepTransactionCall,
                Event.setProcess "crossProcess" ProcessStatus.ACTION_REQUIRED]
              if shouldContinue = false then TryOut.earlyRet r3.2 trA
              else
                match env.sendResult with
                | Except.error e => TryOut.thrown e r3.2 (trA ++ [Event.send])
                | Except.ok tx =>
                    let r4 := updateProcess r3.2 "crossProcess" ProcessStatus.PENDING
                      { txHash := some tx.hash
                        txLink := some (fromChain.blockExplorerUrl ++ "tx/" ++ tx.hash) }
                    match env.waitResult with
                    | Except.error e =>
                        TryOut.thrown e r4.2
                          (trA ++ [Event.send,
                            Event.setProcess "crossProcess" ProcessStatus.PENDING,
                            Event.txWait tx.hash])
                    | Except.ok _ =>
                        TryOut.okDone r4.2
                          (trA ++ [Event.send,
                            Event.setProcess "crossProcess" ProcessStatus.PENDING,
                            Event.txWait tx.hash])

/-- Lines 116-166, after the send transaction has been awaited (or replaced):
the crossProcess is set DONE, the waitForTxProcess created, the destination
receipt awaited keyed by the crossProcess's current txHash (FAILED markings
and rethrow on failure), the receipt parsed (outside any try), and on success
both the Process and the Execution are set DONE with the settled amounts. -/
def afterSend (env : MultichainEnv) (st : MStep) (toChain : ChainMeta)
    (ex : Execution) (tr : List Event) : MRun :=
  let r1 := updateProcess ex "crossProcess" ProcessStatus.DONE
    { message := some "Transfer started: " }
  let r2 := findOrCreateProcess r1.2 "waitForTxProcess" ProcessStatus.STARTED
  let crossHash := execProcessTxHash r2.2 "crossProcess"
  let trB := tr ++ [Event.setProcess "crossProcess" ProcessStatus.DONE,
    Event.findProcess "waitForTxProcess" ProcessStatus.STARTED,
    Event.waitDestination crossHash]
  match env.destinationResult with
  | Except.error e =>
      let rF := updateProcess r2.2 "waitForTxProcess" ProcessStatus.FAILED
        { errorMessage := some "Failed waiting", errorCode := e.codeOf }
      let exF := updateExecution rF.2 ExecStatus.FAILED {}
      { result := Except.error e
        finalStep := { st with execution := some exF }
        trace := trB ++ [Event.setProcess "waitForTxProcess" ProcessStatus.FAILED,
          Event.setExecution ExecStatus.FAILED] }
  | Except.ok receipt =>
      match env.parseReceiptResult with
      | Except.error e =>
          { result := Except.error e
            finalStep := { st with execution := some r2.2 }
            trace := trB ++ [Event.parseReceiptCall] }
      | Except.ok parsed =>
          let rD := updateProcess r2.2 "waitForTxProcess" ProcessStatus.DONE
            { txHash := some receipt.transactionHash
              txLink := some (toChain.blockExplorerUrl ++ "tx/" ++ receipt.transactionHash)
              message := some "Funds Received:" }
          let exD := updateExecution rD.2 ExecStatus.DONE
            { fromAmount := parsed.fromAmount, toAmount := parsed.toAmount }
          { result := Except.ok exD
            finalStep := { st with execution := some exD }
            trace := trB ++ [Event.parseReceiptCall,
              Event.setProcess "waitForTxProcess" ProcessStatus.DONE,
              Event.setExecution ExecStatus.DONE] }

/-- Lines 53-118: the crossProcess is found or created, the try block runs,
and the catch block distinguishes the transaction-replacement condition
(PENDING with the replacement hash, then fall through) from every other error
(FAILED markings and rethrow of the classified error); an early return at the
gate returns the execution as-is. -/
def afterAllowance (env : MultichainEnv) (shouldContinue : Bool) (st : MStep)
    (fromChain toChain : ChainMeta) (ex0 : Execution) (tr0 : List Event) : MRun :=
  let r0 := findOrCreateProcess ex0 "crossProcess" ProcessStatus.STARTED
  let crossProcess := r0.1
  let ex1 := r0.2
  let tr1 := tr0 ++ [Event.findProcess "crossProcess" ProcessStatus.STARTED]
  match sendTry env shouldContinue fromChain crossProcess ex1 with
  | TryOut.earlyRet ex tr =>
      { result := Except.ok ex
        finalStep := { st with execution := some ex }
        trace := tr1 ++ tr }
  | TryOut.thrown e ex tr =>
      match e with
      | MError.replaced rh =>
          let rP := updateProcess ex "crossProcess" ProcessStatus.PENDING
            { txHash := some rh
              txLink := some (fromChain.blockExplorerUrl ++ "tx/" ++ rh) }
          afterSend env st toChain rP.2
            (tr1 ++ tr ++ [Event.setProcess "crossProcess" ProcessStatus.PENDING])
      | _ =>
          let error := parseWalletError e
          let rF := updateProcess ex "crossProcess" ProcessStatus.FAILED
            { errorMessage := some error.message
              htmlErrorMessage := error.htmlMessage
              errorCode := some error.code }
          let exF := updateExecution rF.2 ExecStatus.FAILED {}
          { result := Except.error (MError.err error)
            finalStep := { st with execution := some exF }
            trace := tr1 ++ tr ++ [Event.setProcess "crossProcess" ProcessStatus.FAILED,
              Event.setExecution ExecStatus.FAILED] }
  | TryOut.okDone ex tr => afterSend env st toChain ex (tr1 ++ tr)

/-- The crossProcess as found or created at lines 54-58, before the send
phase runs. -/
def initialCrossProcess (st : MStep) : Process :=
  (findOrCreateProcess (initExecutionObject st.execution) "crossProcess"
    ProcessStatus.STARTED).1

/-- Lines 33-37, the allowance condition: approval is checked only when no
crossProcess with a txHash exists yet and the source token is not the native
token. -/
def allowanceRequired (st : MStep) : Bool :=
  (match (initExecutionObject st.execution).process.find?
      (fun p => p.ident == "crossProcess") with
   | none => true
   | some p => p.txHash.isNone)
  && (st.fromTokenAddress != AddressZero)

namespace MultichainExecutionManager

/-- MultichainExecutionManager.execute (lines 21-166): execution
initialization, chain resolution, the allowance check of STEP 1 (outside any
try block: its failure propagates without FAILED markings), then the send and
receiving phases. -/
def execute (env : MultichainEnv) (shouldContinue : Bool) (st : MStep) : MRun :=
  let ex0 := initExecutionObject st.execution
  let fromChain := env.getChainById st.fromChainId
  let toChain := env.getChainById st.toChainId
  if allowanceRequired st then
    match env.allowanceResult with
    | Except.error e =>
        { result := Except.error e
          finalStep := { st with execution := some ex0 }
          trace := [Event.allowanceCheck] }
    | Except.ok _ =>
        afterAllowance env shouldContinue st fromChain toChain ex0 [Event.allowanceCheck]
  else
    afterAllowance env shouldContinue st fromChain toChain ex0 []

end MultichainExecutionManager

instance {ε α : Type} [DecidableEq ε] [DecidableEq α] : DecidableEq (Except ε α)
  | Except.error e, Except.error f =>
      if h : e = f then isTrue (by rw [h]) else isFalse (by simp [h])
  | Except.error _, Except.ok _ => isFalse (by simp)
  | Except.ok _, Except.error _ => isFalse (by simp)
  | Except.ok a, Except.ok b =>
      if h : a = b then isTrue (by rw [h]) else isFalse (by simp [h])

/-- Recognizer for confirmation-await events of the EVM executor. -/
def isTxWait : Event → Bool
  | Event.txWait _ => true
  | _ => false

/-! Concrete fixtures used by witnesses and counterexamples. -/

/-- All-success Solana environment. -/
def solEnvA : SolanaEnv where
  getChainById := fun n => { id := n, blockExplorerUrl := "E/" }
  balanceResult := Except.ok ()
  getStepTransactionResult := Except.ok { fromChainId := 9, toChainId := 9 }
  stepComparisonResult := Except.ok { fromChainId := 9, toChainId := 9 }
  hook := none
  sendResult := Except.ok "sh"
  confirmErr := Except.ok none
  receivingResult := Except.ok
    { status := "DONE"
      sendingAmount := some "5"
      receivingAmount := some "4"
      receivingTxHash := some "rh" }

/-- Fresh single-chain step with a prepared payload. -/
def solStep1 : Step where
  fromChainId := 1
  toChainId := 1
  transactionRequest := some { data := some "d" }

/-- Fresh cross-chain step with a prepared payload. -/
def solStep2 : Step where
  fromChainId := 1
  toChainId := 2
  transactionRequest := some { data := some "d" }

/-- Cross-chain step resuming with a txHash on its send Process. -/
def solStepHash : Step where
  fromChainId := 1
  toChainId := 2
  execution := some
    { status := ExecStatus.PENDING
      process := [{ ident := "CROSS_CHAIN", status := ProcessStatus.PENDING, txHash := some "oldh" }] }

/-- Single-chain step whose execution already FAILED. -/
def solStepFailed : Step where
  fromChainId := 1
  toChainId := 1
  transactionRequest := some { data := some "d" }
  execution := some
    { status := ExecStatus.FAILED
      process := [{ ident := "SWAP", status := ProcessStatus.FAILED }] }

/-- Single-chain step whose send Process is already DONE. -/
def solStepDone : Step where
  fromChainId := 1
  toChainId := 1
  execution := some
    { status := ExecStatus.DONE
      process := [{ ident := "SWAP", status := ProcessStatus.DONE, txHash := some "oldh" }] }

/-- Single-chain step whose transaction request is present without data. -/
def solStepNoData : Step where
  fromChainId := 1
  toChainId := 1
  transactionRequest := some { data := none }

/-- Single-chain step with no transaction request at all. -/
def solStepBare : Step where
  fromChainId := 1
  toChainId := 1

/-- Solana environment whose customization hook returns an undefined payload. -/
def solEnvHookNoData : SolanaEnv :=
  { solEnvA with hook := some { data := some none } }

/-- All-success multichain environment. -/
def mEnvA : MultichainEnv where
  getChainById := fun n => { id := n, blockExplorerUrl := "M/" }
  allowanceResult := Except.ok ()
  balanceResult := Except.ok ()
  getStepTransactionResult := Except.ok (some { data := some "p" })
  sendResult := Except.ok { hash := "h1" }
  getTransactionResult := Except.ok { hash := "h1" }
  waitResult := Except.ok ()
  destinationResult := Except.ok { transactionHash := "dh" }
  parseReceiptResult := Except.ok { fromAmount := some "1", toAmount := some "2" }

/-- Multichain environment in which the awaited transaction is replaced. -/
def mEnvReplace : MultichainEnv :=
  { mEnvA with waitResult := Except.error (MError.replaced "h2") }

/-- Multichain environment in which receipt parsing fails. -/
def mEnvParseFail : MultichainEnv :=
  { mEnvA with parseReceiptResult :=
      Except.error (MError.err { code := LiFiErrorCode.Other 1, message := "boom" }) }

/-- Multichain environment whose quote service returns no transactionRequest. -/
def mEnvNoTx : MultichainEnv :=
  { mEnvA with getStepTransactionResult := Except.ok none }

/-- Solana environment whose balance check fails with InsufficientFunds. -/
def solEnvBalFail : SolanaEnv :=
  { solEnvA with balanceResult :=
      Except.error { code := LiFiErrorCode.InsufficientFunds, message := "insufficient" } }

/-- Multichain environment whose balance check fails with InsufficientFunds. -/
def mEnvBalFail : MultichainEnv :=
  { mEnvA with balanceResult :=
      Except.error (MError.err
        { code := LiFiErrorCode.InsufficientFunds, message := "no funds" }) }

/-- Multichain environment whose destination-receipt wait fails. -/
def mEnvDestFail : MultichainEnv :=
  { mEnvA with destinationResult :=
      Except.error (MError.err { code := LiFiErrorCode.Other 2, message := "dest" }) }

/-- Fresh multichain step paying with the native token. -/
def mStepFresh : MStep where
  fromChainId := 1
  toChainId := 2
  fromTokenAddress := AddressZero
  toTokenAddress := "T"
  fromAmount := "5"
  approvalAddress := "A"

/-- Fresh multichain step paying with an ERC-20 token. -/
def mStepToken : MStep :=
  { mStepFresh with fromTokenAddress := "0xT" }

/-- Multichain step resuming with a txHash on its crossProcess. -/
def mStepHash : MStep :=
  { mStepFresh with
    execution := some
      { status := ExecStatus.PENDING
        process := [{ ident := "crossProcess", status := ProcessStatus.PENDING, txHash := some "h1" }] } }

/-! Ledger lemmas. -/

theorem applyPatch_ident (p : Process) (q : ProcessPatch) :
    (applyPatch p q).ident = p.ident := rfl

theorem applyPatch_status (p : Process) (q : ProcessPatch) :
    (applyPatch p q).status = p.status := rfl

theorem setAndPatch_ident (p : Process) (st : ProcessStatus) (q : ProcessPatch) :
    (setAndPatch p st q).ident = p.ident := rfl

theorem setAndPatch_status (p : Process) (st : ProcessStatus) (q : ProcessPatch) :
    (setAndPatch p st q).status = st := rfl

theorem find?_updateProcessList (l : List Process) (i : String)
    (st : ProcessStatus) (q : ProcessPatch) :
    (updateProcessList l i st q).find? (fun p => p.ident == i)
      = (l.find? (fun p => p.ident == i)).map (fun p => setAndPatch p st q) := by
  induction l with
  | nil => rfl
  | cons a t ih =>
      simp only [updateProcessList, List.map_cons] at *
      by_cases h : (a.ident == i) = true
      · rw [if_pos h,
          List.find?_cons_of_pos (p := fun x : Process => x.ident == i) _
            (by simpa [setAndPatch_ident] using h),
          List.find?_cons_of_pos (p := fun x : Process => x.ident == i) _ h]
        rfl
      · rw [if_neg h,
          List.find?_cons_of_neg (p := fun x : Process => x.ident == i) _
            (by simpa [setAndPatch_ident] using h),
          List.find?_cons_of_neg (p := fun x : Process => x.ident == i) _ h, ih]

theorem find?_updateProcessList_ne (l : List Process) {i j : String}
    (st : ProcessStatus) (q : ProcessPatch) (hne : j ≠ i) :
    (updateProcessList l i st q).find? (fun p => p.ident == j)
      = l.find? (fun p => p.ident == j) := by
  induction l with
  | nil => rfl
  | cons a t ih =>
      simp only [updateProcessList, List.map_cons] at *
      by_cases hi : (a.ident == i) = true
      · have hj : (a.ident == j) = false := by
          have : a.ident = i := by simpa using hi
          simp [this, Ne.symm hne]
        rw [if_pos hi,
          List.find?_cons_of_neg (p := fun x : Process => x.ident == j) _
            (by simp [setAndPatch_ident, hj]),
          List.find?_cons_of_neg (p := fun x : Process => x.ident == j) _ (by simp [hj]), ih]
      · by_cases hj : (a.ident == j) = true
        · rw [if_neg hi, List.find?_cons_of_pos (p := fun x : Process => x.ident == j) _ hj,
            List.find?_cons_of_pos (p := fun x : Process => x.ident == j) _ hj]
        · rw [if_neg hi, List.find?_cons_of_neg (p := fun x : Process => x.ident == j) _ hj,
            List.find?_cons_of_neg (p := fun x : Process => x.ident == j) _ hj, ih]

theorem updateProcess_fst_status (ex : Execution) (i : String)
    (st : ProcessStatus) (q : ProcessPatch) :
    (updateProcess ex i st q).1.status = st := by
  unfold updateProcess
  cases h : ex.process.find? (fun p => p.ident == i) <;>
    simp [setAndPatch_status, applyPatch_status]

theorem updateProcess_fst_ident (ex : Execution) (i : String)
    (st : ProcessStatus) (q : ProcessPatch) :
    (updateProcess ex i st q).1.ident = i := by
  unfold updateProcess
  cases h : ex.process.find? (fun p => p.ident == i) with
  | some p =>
      have := List.find?_some h
      simp only [setAndPatch_ident]
      simpa using this
  | none => simp [applyPatch_ident]

theorem find?_updateProcess_self (ex : Execution) (i : String)
    (st : ProcessStatus) (q : ProcessPatch) :
    (updateProcess ex i st q).2.process.find? (fun p => p.ident == i)
      = some (updateProcess ex i st q).1 := by
  unfold updateProcess
  cases h : ex.process.find? (fun p => p.ident == i) with
  | some p => simp [find?_updateProcessList, h]
  | none =>
      simp only [List.find?_append, h, Option.none_or]
      rw [List.find?_cons_of_pos _ (by simp [applyPatch_ident])]

theorem find?_updateProcess_ne (ex : Execution) {i j : String}
    (st : ProcessStatus) (q : ProcessPatch) (hne : j ≠ i) :
    (updateProcess ex i st q).2.process.find? (fun p => p.ident == j)
      = ex.process.find? (fun p => p.ident == j) := by
  unfold updateProcess
  cases h : ex.process.find? (fun p => p.ident == i) with
  | some p => simp [find?_updateProcessList_ne _ _ _ hne]
  | none =>
      simp only [List.find?_append]
      rw [List.find?_cons_of_neg _ (by simp [applyPatch_ident, Ne.symm hne])]
      simp

theorem findOrCreateProcess_fst_of_none (ex : Execution) (i : String)
    (init : ProcessStatus)
    (hf : ex.process.find? (fun p => p.ident == i) = none) :
    (findOrCreateProcess ex i init).1 = { ident := i, status := init } := by
  unfold findOrCreateProcess
  rw [hf]

theorem findOrCreateProcess_fst_of_some (ex : Execution) (i : String)
    (init : ProcessStatus) (p : Process)
    (hf : ex.process.find? (fun p => p.ident == i) = some p) :
    (findOrCreateProcess ex i init).1 = p := by
  unfold findOrCreateProcess
  rw [hf]

theorem findOrCreateProcess_fst_ident (ex : Execution) (i : String)
    (init : ProcessStatus) : (findOrCreateProcess ex i init).1.ident = i := by
  unfold findOrCreateProcess
  cases h : ex.process.find? (fun p => p.ident == i) with
  | some p => simpa using List.find?_some h
  | none => rfl

theorem find?_findOrCreateProcess_self (ex : Execution) (i : String)
    (init : ProcessStatus) :
    (findOrCreateProcess ex i init).2.process.find? (fun p => p.ident == i)
      = some (findOrCreateProcess ex i init).1 := by
  unfold findOrCreateProcess
  cases h : ex.process.find? (fun p => p.ident == i) with
  | some p => simpa using h
  | none =>
      simp only [List.find?_append, h, Option.none_or]
      rw [List.find?_cons_of_pos _ (by simp)]

theorem find?_findOrCreateProcess_ne (ex : Execution) {i j : String}
    (init : ProcessStatus) (hne : j ≠ i) :
    (findOrCreateProcess ex i init).2.process.find? (fun p => p.ident == j)
      = ex.process.find? (fun p => p.ident == j) := by
  unfold findOrCreateProcess
  cases h : ex.process.find? (fun p => p.ident == i) with
  | some p => simp
  | none =>
      simp only [List.find?_append]
      rw [List.find?_cons_of_neg _ (by simp [Ne.symm hne])]
      simp

theorem initExecutionObject_some (x : Execution) :
    initExecutionObject (some x) = x := rfl

theorem updateExecution_status (ex : Execution) (st : ExecStatus) (q : ExecPatch) :
    (updateExecution ex st q).status = st := rfl

theorem updateExecution_process (ex : Execution) (st : ExecStatus) (q : ExecPatch) :
    (updateExecution ex st q).process = ex.process := rfl

theorem updateProcess_fst_error (ex : Execution) (i : String) (st : ProcessStatus)
    (q : ProcessPatch) (e : LifiError) (hq : q.error = some e) :
    (updateProcess ex i st q).1.error = some e := by
  unfold updateProcess
  cases h : ex.process.find? (fun p => p.ident == i) <;>
    simp [setAndPatch, applyPatch, hq, mergeOpt]

theorem updateProcess_fst_errorMessage (ex : Execution) (i : String)
    (st : ProcessStatus) (q : ProcessPatch) (m : String)
    (hq : q.errorMessage = some m) :
    (updateProcess ex i st q).1.errorMessage = some m := by
  unfold updateProcess
  cases h : ex.process.find? (fun p => p.ident == i) <;>
    simp [setAndPatch, applyPatch, hq, mergeOpt]

theorem updateProcess_fst_errorCode (ex : Execution) (i : String)
    (st : ProcessStatus) (q : ProcessPatch) (c : LiFiErrorCode)
    (hq : q.errorCode = some c) :
    (updateProcess ex i st q).1.errorCode = some c := by
  unfold updateProcess
  cases h : ex.process.find? (fun p => p.ident == i) <;>
    simp [setAndPatch, applyPatch, hq, mergeOpt]

theorem updateProcess_fst_txHash (ex : Execution) (i : String) (st : ProcessStatus)
    (q : ProcessPatch) (v : String) (hq : q.txHash = some v) :
    (updateProcess ex i st q).1.txHash = some v := by
  unfold updateProcess
  cases h : ex.process.find? (fun p => p.ident == i) <;>
    simp [setAndPatch, applyPatch, hq, mergeOpt]

/-! Step-level wrapper lemmas. -/

theorem exec_withExec (s : Step) (ex : Execution) : (s.withExec ex).exec = ex := rfl

theorem transactionRequest_updateProcessS (s : Step) (i : String)
    (st : ProcessStatus) (q : ProcessPatch) :
    ((updateProcessS s i st q).2).transactionRequest = s.transactionRequest := rfl

theorem processStatus_updateProcessS_self (s : Step) (i : String)
    (st : ProcessStatus) (q : ProcessPatch) :
    ((updateProcessS s i st q).2).processStatus i = some st := by
  simp [Step.processStatus, updateProcessS, execProcessStatus, exec_withExec,
    find?_updateProcess_self, updateProcess_fst_status]

theorem processStatus_updateProcessS_ne (s : Step) {i j : String}
    (st : ProcessStatus) (q : ProcessPatch) (hne : j ≠ i) :
    ((updateProcessS s i st q).2).processStatus j = s.processStatus j := by
  simp [Step.processStatus, updateProcessS, execProcessStatus, exec_withExec,
    find?_updateProcess_ne _ _ _ hne]

theorem processError_updateProcessS_self (s : Step) (i : String)
    (st : ProcessStatus) (q : ProcessPatch) (e : LifiError)
    (hq : q.error = some e) :
    ((updateProcessS s i st q).2).processError i = some e := by
  simp [Step.processError, updateProcessS, execProcessError, exec_withExec,
    find?_updateProcess_self, updateProcess_fst_error _ _ _ _ _ hq]

theorem updateProcessS_fst_ident (s : Step) (i : String) (st : ProcessStatus)
    (q : ProcessPatch) : (updateProcessS s i st q).1.ident = i :=
  updateProcess_fst_ident _ _ _ _

theorem updateProcessS_fst_txHash (s : Step) (i : String) (st : ProcessStatus)
    (q : ProcessPatch) (v : String) (hq : q.txHash = some v) :
    (updateProcessS s i st q).1.txHash = some v :=
  updateProcess_fst_txHash _ _ _ _ _ hq

theorem exec_status_updateExecutionS (s : Step) (st : ExecStatus) (q : ExecPatch) :
    ((updateExecutionS s st q).exec).status = st := rfl

theorem processStatus_updateExecutionS (s : Step) (st : ExecStatus)
    (q : ExecPatch) (i : String) :
    (updateExecutionS s st q).processStatus i = s.processStatus i := rfl

theorem processError_updateExecutionS (s : Step) (st : ExecStatus)
    (q : ExecPatch) (i : String) :
    (updateExecutionS s st q).processError i = s.processError i := rfl

theorem execProcessStatus_updateProcess_self (ex : Execution) (i : String)
    (st : ProcessStatus) (q : ProcessPatch) :
    execProcessStatus (updateProcess ex i st q).2 i = some st := by
  simp [execProcessStatus, find?_updateProcess_self, updateProcess_fst_status]

theorem execProcessStatus_updateProcess_ne (ex : Execution) {i j : String}
    (st : ProcessStatus) (q : ProcessPatch) (hne : j ≠ i) :
    execProcessStatus (updateProcess ex i st q).2 j = execProcessStatus ex j := by
  simp [execProcessStatus, find?_updateProcess_ne _ _ _ hne]

theorem execProcessStatus_findOrCreateProcess_ne (ex : Execution) {i j : String}
    (init : ProcessStatus) (hne : j ≠ i) :
    execProcessStatus (findOrCreateProcess ex i init).2 j = execProcessStatus ex j := by
  simp [execProcessStatus, find?_findOrCreateProcess_ne _ _ hne]

theorem execProcessStatus_updateExecution (ex : Execution) (st : ExecStatus)
    (q : ExecPatch) (i : String) :
    execProcessStatus (updateExecution ex st q) i = execProcessStatus ex i := rfl

theorem execProcessTxHash_updateProcess_some (ex : Execution) (i : String)
    (st : ProcessStatus) (q : ProcessPatch) (v : String) (hq : q.txHash = some v) :
    execProcessTxHash (updateProcess ex i st q).2 i = some v := by
  simp [execProcessTxHash, find?_updateProcess_self,
    updateProcess_fst_txHash _ _ _ _ _ hq]

theorem execProcessTxHash_updateProcess_keep (ex : Execution) (i : String)
    (st : ProcessStatus) (q : ProcessPatch) (hq : q.txHash = none) :
    execProcessTxHash (updateProcess ex i st q).2 i = execProcessTxHash ex i := by
  unfold execProcessTxHash
  rw [find?_updateProcess_self]
  unfold updateProcess
  cases h : ex.process.find? (fun p => p.ident == i) <;>
    simp [h, setAndPatch, applyPatch, hq, mergeOpt]

theorem execProcessTxHash_updateProcess_ne (ex : Execution) {i j : String}
    (st : ProcessStatus) (q : ProcessPatch) (hne : j ≠ i) :
    execProcessTxHash (updateProcess ex i st q).2 j = execProcessTxHash ex j := by
  simp [execProcessTxHash, find?_updateProcess_ne _ _ _ hne]

theorem execProcessTxHash_findOrCreateProcess_ne (ex : Execution) {i j : String}
    (init : ProcessStatus) (hne : j ≠ i) :
    execProcessTxHash (findOrCreateProcess ex i init).2 j = execProcessTxHash ex j := by
  simp [execProcessTxHash, find?_findOrCreateProcess_ne _ _ hne]

theorem execProcessTxHash_updateExecution (ex : Execution) (st : ExecStatus)
    (q : ExecPatch) (i : String) :
    execProcessTxHash (updateExecution ex st q) i = execProcessTxHash ex i := rfl

theorem execProcessErrorMessage_updateProcess_self (ex : Execution) (i : String)
    (st : ProcessStatus) (q : ProcessPatch) (m : String)
    (hq : q.errorMessage = some m) :
    execProcessErrorMessage (updateProcess ex i st q).2 i = some m := by
  simp [execProcessErrorMessage, find?_updateProcess_self,
    updateProcess_fst_errorMessage _ _ _ _ _ hq]

theorem execProcessErrorMessage_updateExecution (ex : Execution)
    (st : ExecStatus) (q : ExecPatch) (i : String) :
    execProcessErrorMessage (updateExecution ex st q) i
      = execProcessErrorMessage ex i := rfl

theorem execProcessErrorCode_updateProcess_self (ex : Execution) (i : String)
    (st : ProcessStatus) (q : ProcessPatch) (c : LiFiErrorCode)
    (hq : q.errorCode = some c) :
    execProcessErrorCode (updateProcess ex i st q).2 i = some c := by
  simp [execProcessErrorCode, find?_updateProcess_self,
    updateProcess_fst_errorCode _ _ _ _ _ hq]

theorem execProcessErrorCode_updateExecution (ex : Execution)
    (st : ExecStatus) (q : ExecPatch) (i : String) :
    execProcessErrorCode (updateExecution ex st q) i
      = execProcessErrorCode ex i := rfl

theorem transactionRequest_adoptComparedStep (a b : Step) :
    (adoptComparedStep a b).transactionRequest = b.transactionRequest := rfl

/-! Trace-shape lemmas. -/

theorem confirmPart_cases (env : SolanaEnv) (ib : Bool) (pt : String) (s : Step)
    (p : Process) (h : String) (tr : List Event) :
    (∃ e s2, confirmPart env ib pt s p h tr
        = SendOut.thrown e s2 (tr ++ [Event.confirm h])) ∨
    (∃ s2 p2, confirmPart env ib pt s p h tr
        = SendOut.ok s2 p2 (tr ++ [Event.confirm h])) ∨
    (∃ s2 p2, confirmPart env ib pt s p h tr
        = SendOut.ok s2 p2
            (tr ++ [Event.confirm h, Event.setProcess pt ProcessStatus.DONE])) := by
  unfold confirmPart
  repeat' split
  · exact Or.inl ⟨_, _, rfl⟩
  · exact Or.inl ⟨_, _, rfl⟩
  · exact Or.inr (Or.inr ⟨_, _, rfl⟩)
  · exact Or.inr (Or.inl ⟨_, _, rfl⟩)

theorem failedMark_status (s1 : Step) (pid : String) (er : LifiError) :
    ((updateExecutionS
        (updateProcessS s1 pid ProcessStatus.FAILED { error := some er }).2
        ExecStatus.FAILED {}).exec).status = ExecStatus.FAILED := rfl

theorem failedMark_mem (s1 : Step) (pid : String) (er : LifiError) :
    ∃ q ∈ ((updateExecutionS
        (updateProcessS s1 pid ProcessStatus.FAILED { error := some er }).2
        ExecStatus.FAILED {}).exec).process,
      q.status = ProcessStatus.FAILED ∧ q.error.isSome := by
  refine ⟨(updateProcess s1.exec pid ProcessStatus.FAILED { error := some er }).1,
    ?_, updateProcess_fst_status _ _ _ _, ?_⟩
  · exact List.mem_of_find?_eq_some (find?_updateProcess_self _ _ _ _)
  · rw [updateProcess_fst_error _ _ _ _ _ rfl]
    rfl

theorem receivingCore_core_free (env : SolanaEnv) (tc : ChainMeta)
    (th : Option String) (p1 : Process) (s1 : Step) (tr1 : List Event)
    (h1 : Event.balanceCheck ∉ tr1) (h2 : Event.getStepTransactionCall ∉ tr1)
    (h3 : Event.stepComparisonCall ∉ tr1) (h4 : Event.send ∉ tr1) :
    Event.balanceCheck ∉ (receivingCore env tc th p1 s1 tr1).trace ∧
    Event.getStepTransactionCall ∉ (receivingCore env tc th p1 s1 tr1).trace ∧
    Event.stepComparisonCall ∉ (receivingCore env tc th p1 s1 tr1).trace ∧
    Event.send ∉ (receivingCore env tc th p1 s1 tr1).trace := by
  unfold receivingCore
  rcases th with _ | h
  · simp [h1, h2, h3, h4]
  · rcases hr : env.receivingResult with e2 | sr <;> simp [h1, h2, h3, h4]

theorem receivingPhase_core_free (env : SolanaEnv) (tc : ChainMeta) (ib : Bool)
    (s : Step) (p : Process) :
    Event.balanceCheck ∉ (receivingPhase env tc ib s p).trace ∧
    Event.getStepTransactionCall ∉ (receivingPhase env tc ib s p).trace ∧
    Event.stepComparisonCall ∉ (receivingPhase env tc ib s p).trace ∧
    Event.send ∉ (receivingPhase env tc ib s p).trace := by
  unfold receivingPhase
  cases ib
  · exact receivingCore_core_free env tc _ _ _ _ (by simp) (by simp) (by simp) (by simp)
  · exact receivingCore_core_free env tc _ _ _ _ (by simp) (by simp) (by simp) (by simp)

theorem receivingCore_error (env : SolanaEnv) (tc : ChainMeta)
    (th : Option String) (p1 : Process) (s1 : Step) (tr1 : List Event)
    (e : LifiError)
    (h : (receivingCore env tc th p1 s1 tr1).result = Except.error e) :
    ((receivingCore env tc th p1 s1 tr1).finalStep.exec).status = ExecStatus.FAILED ∧
    ∃ q ∈ ((receivingCore env tc th p1 s1 tr1).finalStep.exec).process,
      q.status = ProcessStatus.FAILED ∧ q.error.isSome := by
  unfold receivingCore at h ⊢
  rcases th with _ | th
  · exact ⟨failedMark_status _ _ _, failedMark_mem _ _ _⟩
  · rcases hr : env.receivingResult with e2 | sr <;> simp only [hr] at h ⊢
    · exact ⟨failedMark_status _ _ _, failedMark_mem _ _ _⟩
    · simp at h

theorem receivingPhase_error (env : SolanaEnv) (tc : ChainMeta) (ib : Bool)
    (s : Step) (p : Process) (e : LifiError)
    (h : (receivingPhase env tc ib s p).result = Except.error e) :
    ((receivingPhase env tc ib s p).finalStep.exec).status = ExecStatus.FAILED ∧
    ∃ q ∈ ((receivingPhase env tc ib s p).finalStep.exec).process,
      q.status = ProcessStatus.FAILED ∧ q.error.isSome := by
  unfold receivingPhase at h ⊢
  cases ib
  · exact receivingCore_error env tc _ _ _ _ e h
  · exact receivingCore_error env tc _ _ _ _ e h

theorem confirmPart_master (env : SolanaEnv) (ib : Bool) (pt : String)
    (s : Step) (p : Process) (h : String) (tr : List Event) :
    (∀ x ∈ (confirmPart env ib pt s p h tr).trace,
        x ∈ tr ∨ x = Event.confirm h ∨ (∃ b, x = Event.setProcess pt b)) ∧
    (∀ s2 p2 tr2, confirmPart env ib pt s p h tr = SendOut.ok s2 p2 tr2 →
        p2.ident = pt ∨ p2 = p) := by
  unfold confirmPart
  rcases hc : env.confirmErr with e | oe
  · refine ⟨fun x hx => ?_, fun s2 p2 tr2 hh => ?_⟩
    · simp [SendOut.trace] at hx
      tauto
    · simp at hh
  · rcases oe with _ | es
    · cases ib
      · refine ⟨fun x hx => ?_, fun s2 p2 tr2 hh => ?_⟩
        · simp [SendOut.trace] at hx
          tauto
        · simp only [Bool.false_eq_true, if_false] at hh
          cases hh
          exact Or.inr rfl
      · refine ⟨fun x hx => ?_, fun s2 p2 tr2 hh => ?_⟩
        · simp [SendOut.trace] at hx
          tauto
        · simp only [if_true] at hh
          cases hh
          exact Or.inl (updateProcess_fst_ident _ _ _ _)
    · refine ⟨fun x hx => ?_, fun s2 p2 tr2 hh => ?_⟩
      · simp [SendOut.trace] at hx
        tauto
      · simp at hh

theorem afterReconcile_master (env : SolanaEnv) (allow : Bool) (ib : Bool)
    (fc : ChainMeta) (pt : String) (s : Step) (tr : List Event) :
    (∀ x ∈ (afterReconcile env allow ib fc pt s tr).trace,
        x ∈ tr ∨ x = Event.hookCall ∨ x = Event.send ∨
        (∃ a, x = Event.confirm a) ∨ (∃ b, x = Event.setProcess pt b)) ∧
    (∀ s2 p2 tr2, afterReconcile env allow ib fc pt s tr = SendOut.ok s2 p2 tr2 →
        p2.ident = pt) := by
  unfold afterReconcile
  rcases hd : s.transactionRequest.bind TransactionRequest.data with _ | d
  · refine ⟨fun x hx => ?_, fun s2 p2 tr2 hh => ?_⟩
    · simp [SendOut.trace] at hx
      tauto
    · simp at hh
  · cases allow
    · refine ⟨fun x hx => ?_, fun s2 p2 tr2 hh => ?_⟩
      · simp [SendOut.trace] at hx
        tauto
      · simp at hh
    · have hmm : ∀ (mg : Option String) (tr2 : List Event),
          (∀ x ∈ tr2, x ∈ tr ∨ x = Event.hookCall ∨
            (∃ b, x = Event.setProcess pt b)) →
          (∀ x ∈ (match mg with
            | none =>
                SendOut.thrown
                  { code := LiFiErrorCode.TransactionUnprepared
                    message := "Unable to prepare transaction."
                    htmlMessage := none }
                  (updateProcessS s pt ProcessStatus.ACTION_REQUIRED {}).2 tr2
            | some _ =>
                match env.sendResult with
                | Except.error e =>
                    SendOut.thrown e
                      (updateProcessS s pt ProcessStatus.ACTION_REQUIRED {}).2
                      (tr2 ++ [Event.send])
                | Except.ok h =>
                    let r2 := updateProcessS
                      (updateProcessS s pt ProcessStatus.ACTION_REQUIRED {}).2 pt
                      ProcessStatus.PENDING
                      { txHash := some h
                        txLink := some (fc.blockExplorerUrl ++ "tx/" ++ h) }
                    confirmPart env ib pt r2.2 r2.1 h
                      (tr2 ++ [Event.send, Event.setProcess pt ProcessStatus.PENDING])).trace,
            x ∈ tr ∨ x = Event.hookCall ∨ x = Event.send ∨
            (∃ a, x = Event.confirm a) ∨ (∃ b, x = Event.setProcess pt b)) ∧
          (∀ s2 p2 tr3, (match mg with
            | none =>
                SendOut.thrown
                  { code := LiFiErrorCode.TransactionUnprepared
                    message := "Unable to prepare transaction."
                    htmlMessage := none }
                  (updateProcessS s pt ProcessStatus.ACTION_REQUIRED {}).2 tr2
            | some _ =>
                match env.sendResult with
                | Except.error e =>
                    SendOut.thrown e
                      (updateProcessS s pt ProcessStatus.ACTION_REQUIRED {}).2
                      (tr2 ++ [Event.send])
                | Except.ok h =>
                    let r2 := updateProcessS
                      (updateProcessS s pt ProcessStatus.ACTION_REQUIRED {}).2 pt
                      ProcessStatus.PENDING
                      { txHash := some h
                        txLink := some (fc.blockExplorerUrl ++ "tx/" ++ h) }
                    confirmPart env ib pt r2.2 r2.1 h
                      (tr2 ++ [Event.send, Event.setProcess pt ProcessStatus.PENDING]))
              = SendOut.ok s2 p2 tr3 → p2.ident = pt) := by
        intro mg tr2 htr2
        rcases mg with _ | d2
        · refine ⟨fun x hx => ?_, fun s2 p2 tr3 hh => ?_⟩
          · simp [SendOut.trace] at hx
            rcases htr2 x hx with h1 | h1 | h1 <;> tauto
          · simp at hh
        · rcases hs : env.sendResult with e | hsh
          · refine ⟨fun x hx => ?_, fun s2 p2 tr3 hh => ?_⟩
            · simp [SendOut.trace] at hx
              rcases hx with hx | hx
              · rcases htr2 x hx with h1 | h1 | h1 <;> tauto
              · tauto
            · simp at hh
          · refine ⟨fun x hx => ?_, fun s2 p2 tr3 hh => ?_⟩
            · rcases (confirmPart_master env ib pt _ _ hsh _).1 x hx with
                h1 | h1 | ⟨b, h1⟩
              · simp at h1
                rcases h1 with h1 | h1 | h1
                · rcases htr2 x h1 with h2 | h2 | h2 <;> tauto
                · tauto
                · tauto
              · tauto
              · tauto
            · rcases (confirmPart_master env ib pt _ _ hsh _).2 s2 p2 tr3 hh with
                h1 | h1
              · exact h1
              · rw [h1]
                exact updateProcess_fst_ident _ _ _ _
      rcases hh : env.hook with _ | hr
      · exact hmm (some d) _ (fun x hx => by simp at hx; aesop)
      · exact hmm (match hr.data with | none => some d | some v => v) _
          (fun x hx => by simp at hx; aesop)

theorem sendPhase_master (env : SolanaEnv) (allow : Bool) (ib : Bool)
    (fc : ChainMeta) (pt : String) (s0 : Step) (p0 : Process) :
    (∀ x ∈ (sendPhase env allow ib fc pt s0 p0).trace,
        x = Event.balanceCheck ∨ x = Event.getStepTransactionCall ∨
        x = Event.stepComparisonCall ∨ x = Event.hookCall ∨ x = Event.send ∨
        (∃ a, x = Event.confirm a) ∨ (∃ b, x = Event.setProcess pt b)) ∧
    (∀ s2 p2 tr2, sendPhase env allow ib fc pt s0 p0 = SendOut.ok s2 p2 tr2 →
        p0.ident = pt → p2.ident = pt) := by
  unfold sendPhase
  rcases h0 : p0.txHash with _ | h
  · simp only []
    rcases hb : env.balanceResult with e | u
    · refine ⟨fun x hx => ?_, fun s2 p2 tr2 hh => ?_⟩
      · simp [SendOut.trace] at hx
        tauto
      · simp at hh
    · simp only []
      rw [transactionRequest_updateProcessS]
      rcases hrq : s0.transactionRequest with _ | t
      · rcases hg : env.getStepTransactionResult with e | us
        · refine ⟨fun x hx => ?_, fun s2 p2 tr2 hh => ?_⟩
          · simp [SendOut.trace] at hx
            tauto
          · simp at hh
        · rcases hc : env.stepComparisonResult with e | cs
          · refine ⟨fun x hx => ?_, fun s2 p2 tr2 hh => ?_⟩
            · simp [SendOut.trace] at hx
              tauto
            · simp at hh
          · refine ⟨fun x hx => ?_, fun s2 p2 tr2 hh => ?_⟩
            · rcases (afterReconcile_master env allow ib fc pt _ _).1 x hx with
                h1 | h1 | h1 | h1 | h1
              · simp at h1
                tauto
              all_goals tauto
            · exact fun _ => (afterReconcile_master env allow ib fc pt _ _).2
                s2 p2 tr2 hh
      · refine ⟨fun x hx => ?_, fun s2 p2 tr2 hh => ?_⟩
        · rcases (afterReconcile_master env allow ib fc pt _ _).1 x hx with
            h1 | h1 | h1 | h1 | h1
          · simp at h1
            tauto
          all_goals tauto
        · exact fun _ => (afterReconcile_master env allow ib fc pt _ _).2
            s2 p2 tr2 hh
  · refine ⟨fun x hx => ?_, fun s2 p2 tr2 hh hp0 => ?_⟩
    · rcases (confirmPart_master env ib pt s0 p0 h []).1 x hx with
        h1 | h1 | ⟨b, h1⟩
      · simp at h1
      · tauto
      · tauto
    · rcases (confirmPart_master env ib pt s0 p0 h []).2 s2 p2 tr2 hh with
        h1 | h1
      · exact h1
      · rw [h1]
        exact hp0

theorem receivingCore_mem (env : SolanaEnv) (tc : ChainMeta) (th : Option String)
    (p1 : Process) (s1 : Step) (tr1 : List Event) (x : Event)
    (hx : x ∈ (receivingCore env tc th p1 s1 tr1).trace) :
    x ∈ tr1 ∨ (∃ a, x = Event.waitReceiving a) ∨
    (∃ b, x = Event.setProcess p1.ident b) ∨ (∃ b, x = Event.setExecution b) := by
  unfold receivingCore at hx
  rcases th with _ | h
  · simp at hx
    aesop
  · rcases hr : env.receivingResult with e | sr <;> simp only [hr] at hx <;>
      simp at hx <;> aesop

theorem sendTry_mem (env : MultichainEnv) (sc : Bool) (fc : ChainMeta)
    (cp : Process) (ex : Execution) (x : Event)
    (hx : x ∈ (sendTry env sc fc cp ex).trace) :
    x = Event.balanceCheck ∨ x = Event.getStepTransactionCall ∨ x = Event.send ∨
    (∃ a b, x = Event.setProcess a b) ∨ (∃ a, x = Event.getTransaction a) ∨
    (∃ a, x = Event.txWait a) := by
  unfold sendTry at hx
  repeat' split at hx
  all_goals simp [TryOut.trace] at hx
  all_goals aesop

theorem afterSend_mem (env : MultichainEnv) (st : MStep) (tc : ChainMeta)
    (ex : Execution) (tr : List Event) (x : Event)
    (hx : x ∈ (afterSend env st tc ex tr).trace) :
    x ∈ tr ∨ (∃ a b, x = Event.setProcess a b) ∨
    (∃ a b, x = Event.findProcess a b) ∨ (∃ a, x = Event.waitDestination a) ∨
    x = Event.parseReceiptCall ∨ (∃ a, x = Event.setExecution a) := by
  unfold afterSend at hx
  repeat' split at hx
  all_goals simp at hx
  all_goals aesop

theorem mFailedMark_status (ex2 : Execution) (pid : String) (q : ProcessPatch) :
    (updateExecution (updateProcess ex2 pid ProcessStatus.FAILED q).2
      ExecStatus.FAILED {}).status = ExecStatus.FAILED := rfl

theorem mFailedMark_mem (ex2 : Execution) (pid : String) (q : ProcessPatch)
    (m : String) (hq : q.errorMessage = some m) :
    ∃ p ∈ (updateExecution (updateProcess ex2 pid ProcessStatus.FAILED q).2
        ExecStatus.FAILED {}).process,
      p.status = ProcessStatus.FAILED ∧ p.errorMessage.isSome := by
  refine ⟨(updateProcess ex2 pid ProcessStatus.FAILED q).1,
    List.mem_of_find?_eq_some (find?_updateProcess_self _ _ _ _),
    updateProcess_fst_status _ _ _ _, ?_⟩
  rw [updateProcess_fst_errorMessage _ _ _ _ _ hq]
  rfl

theorem afterSend_error (env : MultichainEnv) (st : MStep) (tc : ChainMeta)
    (ex : Execution) (tr : List Event) (e : MError)
    (hpr : ∃ pr, env.parseReceiptResult = Except.ok pr)
    (h : (afterSend env st tc ex tr).result = Except.error e) :
    (initExecutionObject (afterSend env st tc ex tr).finalStep.execution).status
        = ExecStatus.FAILED ∧
    ∃ q ∈ (initExecutionObject (afterSend env st tc ex tr).finalStep.execution).process,
      q.status = ProcessStatus.FAILED ∧ q.errorMessage.isSome := by
  obtain ⟨pr, hpr⟩ := hpr
  unfold afterSend at h ⊢
  rcases hd : env.destinationResult with e2 | receipt <;> simp only [hd] at h ⊢
  · exact ⟨mFailedMark_status _ _ _, mFailedMark_mem _ _ _ _ rfl⟩
  · simp only [hpr] at h
    simp at h

theorem afterSend_trace_prefix (env : MultichainEnv) (st : MStep) (tc : ChainMeta)
    (ex : Execution) (tr : List Event) :
    ∃ rest, (afterSend env st tc ex tr).trace = tr ++ rest := by
  unfold afterSend
  rcases hd : env.destinationResult with e | receipt
  · exact ⟨_, List.append_assoc tr _ _⟩
  · rcases hp : env.parseReceiptResult with e | parsed
    · exact ⟨_, List.append_assoc tr _ _⟩
    · exact ⟨_, List.append_assoc tr _ _⟩

theorem afterSend_mem_of_prefix (env : MultichainEnv) (st : MStep) (tc : ChainMeta)
    (ex : Execution) (tr : List Event) (x : Event) (hx : x ∈ tr) :
    x ∈ (afterSend env st tc ex tr).trace := by
  obtain ⟨rest, hr⟩ := afterSend_trace_prefix env st tc ex tr
  rw [hr]
  exact List.mem_append_left _ hx

theorem afterSend_preserve_not (env : MultichainEnv) (st : MStep) (tc : ChainMeta)
    (ex : Execution) (tr : List Event) (x : Event) (hx : x ∉ tr)
    (hs1 : ∀ a b, x ≠ Event.setProcess a b)
    (hs2 : ∀ a b, x ≠ Event.findProcess a b)
    (hs3 : ∀ a, x ≠ Event.waitDestination a)
    (hs4 : x ≠ Event.parseReceiptCall)
    (hs5 : ∀ a, x ≠ Event.setExecution a) :
    x ∉ (afterSend env st tc ex tr).trace := by
  intro hm
  rcases afterSend_mem env st tc ex tr x hm with
    h | ⟨a, b, h⟩ | ⟨a, b, h⟩ | ⟨a, h⟩ | h | ⟨a, h⟩
  · exact hx h
  · exact hs1 a b h
  · exact hs2 a b h
  · exact hs3 a h
  · exact hs4 h
  · exact hs5 a h

/-! Claims. -/

/-- C1: with interactive continuation disabled, a step whose send-phase
Process has no txHash and whose transaction payload is present (and whose
balance check passes) is halted exactly at ACTION_REQUIRED: the run returns
normally, the send-phase Process ends in status ACTION_REQUIRED, the signing
agent's send operation is never called, and no Process is ever set to (or
created at) PENDING during the invocation; this holds for both the Solana
executor (gated by allowUserInteraction) and the EVM multichain executor
(gated by shouldContinue). -/
theorem claim_C1 :
    (∀ (env : SolanaEnv) (s : Step) (p0 : Process) (s2 : Step) (d : String),
      initialSendState env s = (p0, s2) →
      p0.txHash = none →
      p0.status ≠ ProcessStatus.DONE →
      env.balanceResult = Except.ok () →
      s.transactionRequest = some { data := some d } →
      (∃ sr, (SolanaStepExecutor.executeStep env false s).result = Except.ok sr) ∧
      (SolanaStepExecutor.executeStep env false s).finalStep.processStatus
          (processType env s) = some ProcessStatus.ACTION_REQUIRED ∧
      Event.send ∉ (SolanaStepExecutor.executeStep env false s).trace ∧
      (∀ i, Event.setProcess i ProcessStatus.PENDING ∉
        (SolanaStepExecutor.executeStep env false s).trace) ∧
      (∀ i, Event.findProcess i ProcessStatus.PENDING ∉
        (SolanaStepExecutor.executeStep env false s).trace)) ∧
    (∀ (env : MultichainEnv) (st : MStep) (cp : Process) (ex1 : Execution)
      (t : TransactionRequest),
      findOrCreateProcess (initExecutionObject st.execution) "crossProcess"
          ProcessStatus.STARTED = (cp, ex1) →
      cp.txHash = none →
      env.allowanceResult = Except.ok () →
      env.balanceResult = Except.ok () →
      env.getStepTransactionResult = Except.ok (some t) →
      (∃ r, (MultichainExecutionManager.execute env false st).result = Except.ok r) ∧
      (MultichainExecutionManager.execute env false st).finalStep.processStatus
          "crossProcess" = some ProcessStatus.ACTION_REQUIRED ∧
      Event.send ∉ (MultichainExecutionManager.execute env false st).trace ∧
      (∀ i, Event.setProcess i ProcessStatus.PENDING ∉
        (MultichainExecutionManager.execute env false st).trace) ∧
      (∀ i, Event.findProcess i ProcessStatus.PENDING ∉
        (MultichainExecutionManager.execute env false st).trace)) := by
  constructor
  · intro env s p0 s2 d hI h0 hD hb hreq
    have hDb : (p0.status != ProcessStatus.DONE) = true := by
      simpa [bne_iff_ne] using hD
    have hs2req : s2.transactionRequest = some { data := some d } := by
      have h2 := congrArg (fun z : Process × Step => z.2.transactionRequest) hI
      dsimp only at h2
      rw [show (initialSendState env s).2.transactionRequest
          = s.transactionRequest from rfl] at h2
      rw [← h2]
      exact hreq
    simp only [SolanaStepExecutor.executeStep, sendPhase, afterReconcile, hI,
      hDb, h0, hb, transactionRequest_updateProcessS, hs2req, Option.bind,
      if_true]
    refine ⟨⟨_, rfl⟩, ?_, by simp, by simp, by simp⟩
    exact processStatus_updateProcessS_self _ _ _ _
  · intro env st cp ex1 t hI h0 hal hb hg
    by_cases hA : allowanceRequired st = true <;>
      simp only [MultichainExecutionManager.execute, afterAllowance, sendTry,
        hA, hal, hI, h0, hb, hg, if_true, if_false, Bool.false_eq_true] <;>
      refine ⟨⟨_, rfl⟩, ?_, by simp, by simp, by simp⟩ <;>
      exact execProcessStatus_updateProcess_self _ _ _ _

/-- C1 witness: the gate halts a concrete fresh single-chain Solana step and a
concrete fresh multichain step at ACTION_REQUIRED. -/
theorem claim_C1_witness :
    ((∃ sr, (SolanaStepExecutor.executeStep solEnvA false solStep1).result
        = Except.ok sr) ∧
     (SolanaStepExecutor.executeStep solEnvA false solStep1).finalStep.processStatus
        (processType solEnvA solStep1) = some ProcessStatus.ACTION_REQUIRED ∧
     Event.send ∉ (SolanaStepExecutor.executeStep solEnvA false solStep1).trace ∧
     (∀ i, Event.setProcess i ProcessStatus.PENDING ∉
        (SolanaStepExecutor.executeStep solEnvA false solStep1).trace) ∧
     (∀ i, Event.findProcess i ProcessStatus.PENDING ∉
        (SolanaStepExecutor.executeStep solEnvA false solStep1).trace)) ∧
    ((∃ r, (MultichainExecutionManager.execute mEnvA false mStepFresh).result
        = Except.ok r) ∧
     (MultichainExecutionManager.execute mEnvA false mStepFresh).finalStep.processStatus
        "crossProcess" = some ProcessStatus.ACTION_REQUIRED ∧
     Event.send ∉ (MultichainExecutionManager.execute mEnvA false mStepFresh).trace ∧
     (∀ i, Event.setProcess i ProcessStatus.PENDING ∉
        (MultichainExecutionManager.execute mEnvA false mStepFresh).trace) ∧
     (∀ i, Event.findProcess i ProcessStatus.PENDING ∉
        (MultichainExecutionManager.execute mEnvA false mStepFresh).trace)) := by
  constructor
  · exact claim_C1.1 solEnvA solStep1 _ _ "d" rfl rfl (by decide) rfl rfl
  · exact claim_C1.2 mEnvA mStepFresh _ _ { data := some "p" } rfl rfl rfl rfl rfl

/-- C2: a step resuming with a txHash on its send-phase Process never invokes
the Balance Guard, the Quote Reconciler (getStepTransaction/stepComparison),
the allowance check, or a new broadcast; when the phase is not already DONE
the executor proceeds directly to awaiting confirmation of that txHash (the
Solana executor confirms the signature; the EVM executor loads the
transaction by that hash and awaits it). -/
theorem claim_C2 :
    (∀ (env : SolanaEnv) (allow : Bool) (s : Step) (p0 : Process) (s2 : Step)
      (h : String),
      initialSendState env s = (p0, s2) →
      p0.txHash = some h →
      Event.balanceCheck ∉ (SolanaStepExecutor.executeStep env allow s).trace ∧
      Event.getStepTransactionCall ∉
        (SolanaStepExecutor.executeStep env allow s).trace ∧
      Event.stepComparisonCall ∉
        (SolanaStepExecutor.executeStep env allow s).trace ∧
      Event.send ∉ (SolanaStepExecutor.executeStep env allow s).trace ∧
      (p0.status ≠ ProcessStatus.DONE →
        Event.confirm h ∈ (SolanaStepExecutor.executeStep env allow s).trace)) ∧
    (∀ (env : MultichainEnv) (sc : Bool) (st : MStep) (cp : Process)
      (ex1 : Execution) (h : String),
      findOrCreateProcess (initExecutionObject st.execution) "crossProcess"
          ProcessStatus.STARTED = (cp, ex1) →
      cp.txHash = some h →
      Event.balanceCheck ∉ (MultichainExecutionManager.execute env sc st).trace ∧
      Event.getStepTransactionCall ∉
        (MultichainExecutionManager.execute env sc st).trace ∧
      Event.send ∉ (MultichainExecutionManager.execute env sc st).trace ∧
      Event.allowanceCheck ∉ (MultichainExecutionManager.execute env sc st).trace ∧
      Event.getTransaction h ∈ (MultichainExecutionManager.execute env sc st).trace ∧
      (∀ tx, env.getTransactionResult = Except.ok tx →
        Event.txWait tx.hash ∈ (MultichainExecutionManager.execute env sc st).trace)) := by
  constructor
  · intro env allow s p0 s2 h hI h0
    by_cases hD : p0.status = ProcessStatus.DONE
    · have hDb : (p0.status != ProcessStatus.DONE) = false := by simp [hD]
      simp only [SolanaStepExecutor.executeStep, hI, hDb, Bool.false_eq_true,
        if_false]
      have hrc := receivingPhase_core_free env (env.getChainById s.toChainId)
        ((env.getChainById s.fromChainId).id != (env.getChainById s.toChainId).id)
        s2 p0
      refine ⟨?_, ?_, ?_, ?_, fun hc => absurd hD hc⟩ <;>
        simp [List.mem_append, hrc.1, hrc.2.1, hrc.2.2.1, hrc.2.2.2]
    · have hDb : (p0.status != ProcessStatus.DONE) = true := by
        simpa [bne_iff_ne] using hD
      simp only [SolanaStepExecutor.executeStep, hI, hDb, if_true, sendPhase, h0]
      rcases confirmPart_cases env
          ((env.getChainById s.fromChainId).id != (env.getChainById s.toChainId).id)
          (processType env s) s2 p0 h [] with
        ⟨e, s3, hc⟩ | ⟨s3, p3, hc⟩ | ⟨s3, p3, hc⟩ <;> simp only [hc]
      · refine ⟨?_, ?_, ?_, ?_, fun _ => ?_⟩ <;> simp
      · have hrc := receivingPhase_core_free env (env.getChainById s.toChainId)
          ((env.getChainById s.fromChainId).id != (env.getChainById s.toChainId).id)
          s3 p3
        refine ⟨?_, ?_, ?_, ?_, fun _ => ?_⟩ <;>
          simp [List.mem_append, hrc.1, hrc.2.1, hrc.2.2.1, hrc.2.2.2]
      · have hrc := receivingPhase_core_free env (env.getChainById s.toChainId)
          ((env.getChainById s.fromChainId).id != (env.getChainById s.toChainId).id)
          s3 p3
        refine ⟨?_, ?_, ?_, ?_, fun _ => ?_⟩ <;>
          simp [List.mem_append, hrc.1, hrc.2.1, hrc.2.2.1, hrc.2.2.2]
  · intro env sc st cp ex1 h hI h0
    have hcp : cp = (findOrCreateProcess (initExecutionObject st.execution)
        "crossProcess" ProcessStatus.STARTED).1 := by rw [hI]
    have hA : allowanceRequired st = false := by
      unfold allowanceRequired
      cases hf : (initExecutionObject st.execution).process.find?
          (fun p => p.ident == "crossProcess") with
      | none =>
          rw [findOrCreateProcess_fst_of_none _ _ _ hf] at hcp
          rw [hcp] at h0
          simp at h0
      | some p =>
          rw [findOrCreateProcess_fst_of_some _ _ _ _ hf] at hcp
          rw [hcp] at h0
          simp [h0]
    simp only [MultichainExecutionManager.execute, hA, Bool.false_eq_true,
      if_false, afterAllowance, hI, sendTry, h0]
    rcases hg : env.getTransactionResult with e | tx <;> simp only [hg]
    · rcases e with rh | le | m
      · refine ⟨?_, ?_, ?_, ?_, ?_, fun tx htx => ?_⟩
        · exact afterSend_preserve_not _ _ _ _ _ _ (by simp) (by simp) (by simp)
            (by simp) (by simp) (by simp)
        · exact afterSend_preserve_not _ _ _ _ _ _ (by simp) (by simp) (by simp)
            (by simp) (by simp) (by simp)
        · exact afterSend_preserve_not _ _ _ _ _ _ (by simp) (by simp) (by simp)
            (by simp) (by simp) (by simp)
        · exact afterSend_preserve_not _ _ _ _ _ _ (by simp) (by simp) (by simp)
            (by simp) (by simp) (by simp)
        · exact afterSend_mem_of_prefix _ _ _ _ _ _ (by simp)
        · simp at htx
      · refine ⟨by simp, by simp, by simp, by simp, by simp, fun tx htx => ?_⟩
        simp at htx
      · refine ⟨by simp, by simp, by simp, by simp, by simp, fun tx htx => ?_⟩
        simp at htx
    · rcases hw : env.waitResult with e | u <;> simp only [hw]
      · rcases e with rh | le | m
        · refine ⟨?_, ?_, ?_, ?_, ?_, fun tx2 htx => ?_⟩
          · exact afterSend_preserve_not _ _ _ _ _ _ (by simp) (by simp) (by simp)
              (by simp) (by simp) (by simp)
          · exact afterSend_preserve_not _ _ _ _ _ _ (by simp) (by simp) (by simp)
              (by simp) (by simp) (by simp)
          · exact afterSend_preserve_not _ _ _ _ _ _ (by simp) (by simp) (by simp)
              (by simp) (by simp) (by simp)
          · exact afterSend_preserve_not _ _ _ _ _ _ (by simp) (by simp) (by simp)
              (by simp) (by simp) (by simp)
          · exact afterSend_mem_of_prefix _ _ _ _ _ _ (by simp)
          · have hteq : tx = tx2 := by simpa using htx
            subst hteq
            exact afterSend_mem_of_prefix _ _ _ _ _ _ (by simp)
        · refine ⟨by simp, by simp, by simp, by simp, by simp, fun tx2 htx => ?_⟩
          have hteq : tx = tx2 := by simpa using htx
          subst hteq
          simp
        · refine ⟨by simp, by simp, by simp, by simp, by simp, fun tx2 htx => ?_⟩
          have hteq : tx = tx2 := by simpa using htx
          subst hteq
          simp
      · refine ⟨?_, ?_, ?_, ?_, ?_, fun tx2 htx => ?_⟩
        · exact afterSend_preserve_not _ _ _ _ _ _ (by simp) (by simp) (by simp)
            (by simp) (by simp) (by simp)
        · exact afterSend_preserve_not _ _ _ _ _ _ (by simp) (by simp) (by simp)
            (by simp) (by simp) (by simp)
        · exact afterSend_preserve_not _ _ _ _ _ _ (by simp) (by simp) (by simp)
            (by simp) (by simp) (by simp)
        · exact afterSend_preserve_not _ _ _ _ _ _ (by simp) (by simp) (by simp)
            (by simp) (by simp) (by simp)
        · exact afterSend_mem_of_prefix _ _ _ _ _ _ (by simp)
        · have hteq : tx = tx2 := by simpa using htx
          subst hteq
          exact afterSend_mem_of_prefix _ _ _ _ _ _ (by simp)

/-- C2 witness: concrete resumptions with a stored txHash skip balance check,
reconciliation and broadcast, and go straight to confirmation. -/
theorem claim_C2_witness :
    (Event.balanceCheck ∉ (SolanaStepExecutor.executeStep solEnvA true solStepHash).trace ∧
     Event.getStepTransactionCall ∉
        (SolanaStepExecutor.executeStep solEnvA true solStepHash).trace ∧
     Event.stepComparisonCall ∉
        (SolanaStepExecutor.executeStep solEnvA true solStepHash).trace ∧
     Event.send ∉ (SolanaStepExecutor.executeStep solEnvA true solStepHash).trace ∧
     ((initialSendState solEnvA solStepHash).1.status ≠ ProcessStatus.DONE →
       Event.confirm "oldh" ∈
         (SolanaStepExecutor.executeStep solEnvA true solStepHash).trace)) ∧
    (Event.balanceCheck ∉ (MultichainExecutionManager.execute mEnvA true mStepHash).trace ∧
     Event.getStepTransactionCall ∉
        (MultichainExecutionManager.execute mEnvA true mStepHash).trace ∧
     Event.send ∉ (MultichainExecutionManager.execute mEnvA true mStepHash).trace ∧
     Event.allowanceCheck ∉ (MultichainExecutionManager.execute mEnvA true mStepHash).trace ∧
     Event.getTransaction "h1" ∈ (MultichainExecutionManager.execute mEnvA true mStepHash).trace ∧
     (∀ tx, mEnvA.getTransactionResult = Except.ok tx →
       Event.txWait tx.hash ∈ (MultichainExecutionManager.execute mEnvA true mStepHash).trace)) := by
  constructor
  · exact claim_C2.1 solEnvA true solStepHash _ _ "oldh" rfl rfl
  · exact claim_C2.2 mEnvA true mStepHash _ _ "h1" rfl rfl

theorem afterSend_crossStatus (env : MultichainEnv) (st : MStep) (tc : ChainMeta)
    (ex : Execution) (tr : List Event) :
    (afterSend env st tc ex tr).finalStep.processStatus "crossProcess"
      = some ProcessStatus.DONE := by
  unfold afterSend MStep.processStatus
  have hne : "crossProcess" ≠ "waitForTxProcess" := by decide
  rcases hd : env.destinationResult with e | receipt
  · dsimp only
    rw [show ∀ x : Execution, initExecutionObject (some x) = x from fun _ => rfl]
    rw [execProcessStatus_updateExecution, execProcessStatus_updateProcess_ne _ _ _ hne,
      execProcessStatus_findOrCreateProcess_ne _ _ hne,
      execProcessStatus_updateProcess_self]
  · rcases hp : env.parseReceiptResult with e | parsed <;>
      simp only [hp] <;>
      rw [show ∀ x : Execution, initExecutionObject (some x) = x from fun _ => rfl]
    · rw [execProcessStatus_findOrCreateProcess_ne _ _ hne,
        execProcessStatus_updateProcess_self]
    · rw [execProcessStatus_updateExecution, execProcessStatus_updateProcess_ne _ _ _ hne,
        execProcessStatus_findOrCreateProcess_ne _ _ hne,
        execProcessStatus_updateProcess_self]

theorem afterSend_crossTxHash (env : MultichainEnv) (st : MStep) (tc : ChainMeta)
    (ex : Execution) (tr : List Event) :
    (afterSend env st tc ex tr).finalStep.processTxHash "crossProcess"
      = execProcessTxHash ex "crossProcess" := by
  unfold afterSend MStep.processTxHash
  have hne : "crossProcess" ≠ "waitForTxProcess" := by decide
  rcases hd : env.destinationResult with e | receipt
  · dsimp only
    rw [show ∀ x : Execution, initExecutionObject (some x) = x from fun _ => rfl]
    rw [execProcessTxHash_updateExecution, execProcessTxHash_updateProcess_ne _ _ _ hne,
      execProcessTxHash_findOrCreateProcess_ne _ _ hne,
      execProcessTxHash_updateProcess_keep _ _ _ _ rfl]
  · rcases hp : env.parseReceiptResult with e | parsed <;>
      simp only [hp] <;>
      rw [show ∀ x : Execution, initExecutionObject (some x) = x from fun _ => rfl]
    · rw [execProcessTxHash_findOrCreateProcess_ne _ _ hne,
        execProcessTxHash_updateProcess_keep _ _ _ _ rfl]
    · rw [execProcessTxHash_updateExecution, execProcessTxHash_updateProcess_ne _ _ _ hne,
        execProcessTxHash_findOrCreateProcess_ne _ _ hne,
        execProcessTxHash_updateProcess_keep _ _ _ _ rfl]

theorem afterSend_mem_setDone (env : MultichainEnv) (st : MStep) (tc : ChainMeta)
    (ex : Execution) (tr : List Event) :
    Event.setProcess "crossProcess" ProcessStatus.DONE ∈ (afterSend env st tc ex tr).trace := by
  unfold afterSend
  rcases hd : env.destinationResult with e | receipt
  · simp
  · rcases hp : env.parseReceiptResult with e | parsed <;> simp

theorem afterSend_countP_isTxWait (env : MultichainEnv) (st : MStep)
    (tc : ChainMeta) (ex : Execution) (tr : List Event) :
    List.countP isTxWait (afterSend env st tc ex tr).trace
      = List.countP isTxWait tr := by
  unfold afterSend
  rcases hd : env.destinationResult with e | receipt
  · simp [List.countP_append, isTxWait]
  · rcases hp : env.parseReceiptResult with e | parsed <;>
      simp [List.countP_append, isTxWait]

/-- C3 counterexample: in a concrete run whose confirmation await fails with
TRANSACTION_REPLACED (replacement hash h2), the executor records the
replacement as PENDING but then marks the phase DONE without ever awaiting
confirmation of h2: the claim that confirmation is retried against the
replacement before DONE is false on the code. -/
theorem claim_C3_counterexample :
    (MultichainExecutionManager.execute mEnvReplace true mStepFresh).finalStep.processStatus
        "crossProcess" = some ProcessStatus.DONE ∧
    (MultichainExecutionManager.execute mEnvReplace true mStepFresh).finalStep.processTxHash
        "crossProcess" = some "h2" ∧
    Event.txWait "h2" ∉
      (MultichainExecutionManager.execute mEnvReplace true mStepFresh).trace ∧
    List.countP isTxWait
      (MultichainExecutionManager.execute mEnvReplace true mStepFresh).trace = 1 := by
  decide

/-- C3 (amended): when the confirmation await fails with TRANSACTION_REPLACED
and a replacement transaction attached, the crossProcess is updated to PENDING
with the replacement txHash and the replacement is not treated as an error —
but the phase is then marked DONE directly, with no second confirmation await
(the await runs exactly once, never against the replacement hash). -/
theorem claim_C3 :
    ∀ (env : MultichainEnv) (st : MStep) (cp : Process) (ex1 : Execution)
      (tx : TxResponse) (rh : String),
      findOrCreateProcess (initExecutionObject st.execution) "crossProcess"
          ProcessStatus.STARTED = (cp, ex1) →
      cp.txHash = none →
      env.allowanceResult = Except.ok () →
      env.balanceResult = Except.ok () →
      (∃ t, env.getStepTransactionResult = Except.ok (some t)) →
      env.sendResult = Except.ok tx →
      env.waitResult = Except.error (MError.replaced rh) →
      rh ≠ tx.hash →
      (MultichainExecutionManager.execute env true st).finalStep.processTxHash
          "crossProcess" = some rh ∧
      (MultichainExecutionManager.execute env true st).finalStep.processStatus
          "crossProcess" = some ProcessStatus.DONE ∧
      Event.setProcess "crossProcess" ProcessStatus.PENDING ∈
        (MultichainExecutionManager.execute env true st).trace ∧
      Event.setProcess "crossProcess" ProcessStatus.DONE ∈
        (MultichainExecutionManager.execute env true st).trace ∧
      List.countP isTxWait (MultichainExecutionManager.execute env true st).trace = 1 ∧
      Event.txWait rh ∉ (MultichainExecutionManager.execute env true st).trace := by
  intro env st cp ex1 tx rh hI h0 hal hb hg hsend hw hne
  obtain ⟨t, hg⟩ := hg
  by_cases hA : allowanceRequired st = true <;>
    simp only [MultichainExecutionManager.execute, afterAllowance, hA, hal, hI,
      sendTry, h0, hb, hg, hsend, hw, if_true, if_false, Bool.false_eq_true,
      Bool.true_eq_false] <;>
    refine ⟨?_, afterSend_crossStatus _ _ _ _ _, ?_, ?_, ?_, ?_⟩
  · rw [afterSend_crossTxHash,
      execProcessTxHash_updateProcess_some _ _ _ _ _ rfl]
  · exact afterSend_mem_of_prefix _ _ _ _ _ _ (by simp)
  · exact afterSend_mem_setDone _ _ _ _ _
  · rw [afterSend_countP_isTxWait]
    simp [List.countP_append, isTxWait]
  · exact afterSend_preserve_not _ _ _ _ _ _ (by simp [hne]) (by simp)
      (by simp) (by simp) (by simp) (by simp)
  · rw [afterSend_crossTxHash,
      execProcessTxHash_updateProcess_some _ _ _ _ _ rfl]
  · exact afterSend_mem_of_prefix _ _ _ _ _ _ (by simp)
  · exact afterSend_mem_setDone _ _ _ _ _
  · rw [afterSend_countP_isTxWait]
    simp [List.countP_append, isTxWait]
  · exact afterSend_preserve_not _ _ _ _ _ _ (by simp [hne]) (by simp)
      (by simp) (by simp) (by simp) (by simp)

/-- C3 witness: the amended replacement behaviour on the concrete replaced
run. -/
theorem claim_C3_witness :
    (MultichainExecutionManager.execute mEnvReplace true mStepFresh).finalStep.processTxHash
        "crossProcess" = some "h2" ∧
    (MultichainExecutionManager.execute mEnvReplace true mStepFresh).finalStep.processStatus
        "crossProcess" = some ProcessStatus.DONE ∧
    Event.setProcess "crossProcess" ProcessStatus.PENDING ∈
      (MultichainExecutionManager.execute mEnvReplace true mStepFresh).trace ∧
    Event.setProcess "crossProcess" ProcessStatus.DONE ∈
      (MultichainExecutionManager.execute mEnvReplace true mStepFresh).trace ∧
    List.countP isTxWait
      (MultichainExecutionManager.execute mEnvReplace true mStepFresh).trace = 1 ∧
    Event.txWait "h2" ∉
      (MultichainExecutionManager.execute mEnvReplace true mStepFresh).trace :=
  claim_C3 mEnvReplace mStepFresh _ _ { hash := "h1" } "h2" rfl rfl rfl rfl
    ⟨{ data := some "p" }, rfl⟩ rfl rfl (by decide)

/-- C4 counterexample: a concrete single-chain step whose broadcast and
confirmation succeed does invoke the receiving-chain waiter (waitReceiving of
the send txHash appears in the trace), and the send-phase DONE and Execution
DONE transitions are emitted only after the waiter, not immediately after
confirmation — refuting the claim that the waiter is not invoked for
single-chain steps. -/
theorem claim_C4_counterexample :
    solStep1.fromChainId = solStep1.toChainId ∧
    Event.waitReceiving "sh" ∈
      (SolanaStepExecutor.executeStep solEnvA true solStep1).trace ∧
    (SolanaStepExecutor.executeStep solEnvA true solStep1).trace
      = [Event.findProcess "SWAP" ProcessStatus.STARTED,
         Event.setProcess "SWAP" ProcessStatus.STARTED,
         Event.balanceCheck,
         Event.setProcess "SWAP" ProcessStatus.ACTION_REQUIRED,
         Event.send,
         Event.setProcess "SWAP" ProcessStatus.PENDING,
         Event.confirm "sh",
         Event.waitReceiving "sh",
         Event.setProcess "SWAP" ProcessStatus.DONE,
         Event.setExecution ExecStatus.DONE] := by
  decide

/-- C4 (amended): for a single-chain step no RECEIVING_CHAIN phase is ever
created or updated, but the receiving-chain waiter is still consulted: after
successful broadcast and confirmation the SWAP Process is not marked DONE at
confirmation — the waiter runs keyed by the send txHash and only after it
resolves are the SWAP Process and the overall Execution marked DONE. -/
theorem claim_C4 :
    (∀ (env : SolanaEnv) (allow : Bool) (s : Step),
      (env.getChainById s.fromChainId).id = (env.getChainById s.toChainId).id →
      (∀ i, Event.findProcess "RECEIVING_CHAIN" i ∉
        (SolanaStepExecutor.executeStep env allow s).trace) ∧
      (∀ i, Event.setProcess "RECEIVING_CHAIN" i ∉
        (SolanaStepExecutor.executeStep env allow s).trace)) ∧
    (∀ (env : SolanaEnv) (s : Step) (p0 : Process) (s2 : Step) (d h : String)
      (sr : StatusResponse),
      (env.getChainById s.fromChainId).id = (env.getChainById s.toChainId).id →
      initialSendState env s = (p0, s2) →
      p0.txHash = none →
      p0.status ≠ ProcessStatus.DONE →
      env.balanceResult = Except.ok () →
      s.transactionRequest = some { data := some d } →
      env.hook = none →
      env.sendResult = Except.ok h →
      env.confirmErr = Except.ok none →
      env.receivingResult = Except.ok sr →
      (SolanaStepExecutor.executeStep env true s).trace
        = [Event.findProcess "SWAP" ProcessStatus.STARTED,
           Event.setProcess "SWAP" ProcessStatus.STARTED,
           Event.balanceCheck,
           Event.setProcess "SWAP" ProcessStatus.ACTION_REQUIRED,
           Event.send,
           Event.setProcess "SWAP" ProcessStatus.PENDING,
           Event.confirm h,
           Event.waitReceiving h,
           Event.setProcess "SWAP" ProcessStatus.DONE,
           Event.setExecution ExecStatus.DONE] ∧
      (SolanaStepExecutor.executeStep env true s).finalStep.processStatus "SWAP"
        = some ProcessStatus.DONE ∧
      ((SolanaStepExecutor.executeStep env true s).finalStep.exec).status
        = ExecStatus.DONE) := by
  constructor
  · intro env allow s hsingle
    have hib : ((env.getChainById s.fromChainId).id
        != (env.getChainById s.toChainId).id) = false := by simp [hsingle]
    have hpt : processType env s = "SWAP" := by
      unfold processType
      rw [hib]
      simp
    rcases hIS : initialSendState env s with ⟨p0, s2⟩
    have hp0id : p0.ident = "SWAP" := by
      have hW : (initialSendState env s).1.ident = processType env s :=
        findOrCreateProcess_fst_ident _ _ _
      rw [hIS] at hW
      dsimp only at hW
      rw [hpt] at hW
      exact hW
    have key : ∀ x ∈ (SolanaStepExecutor.executeStep env allow s).trace,
        (∀ i, x ≠ Event.findProcess "RECEIVING_CHAIN" i) ∧
        (∀ i, x ≠ Event.setProcess "RECEIVING_CHAIN" i) := by
      intro x hx
      simp only [SolanaStepExecutor.executeStep, hIS, hib, hpt] at hx
      by_cases hD : (p0.status != ProcessStatus.DONE) = true
      · simp only [hD, if_true] at hx
        rcases hsp : sendPhase env allow false (env.getChainById s.fromChainId)
            "SWAP" s2 p0 with ⟨s3, tr⟩ | ⟨e, s3, tr⟩ | ⟨s3, p3, tr⟩ <;>
          simp only [hsp] at hx
        · simp only [List.mem_append, List.mem_cons, List.not_mem_nil,
            or_false] at hx
          rcases hx with hx | hx
          · subst hx
            exact ⟨by simp, by simp⟩
          · have hm := (sendPhase_master env allow false
              (env.getChainById s.fromChainId) "SWAP" s2 p0).1
            rw [hsp] at hm
            simp only [SendOut.trace] at hm
            rcases hm x hx with h1 | h1 | h1 | h1 | h1 | ⟨a, h1⟩ | ⟨b, h1⟩ <;>
              subst h1 <;> exact ⟨by simp, by simp⟩
        · simp only [List.mem_append, List.mem_cons, List.not_mem_nil,
            or_false] at hx
          rcases hx with (hx | hx) | hx | hx
          · subst hx
            exact ⟨by simp, by simp⟩
          · have hm := (sendPhase_master env allow false
              (env.getChainById s.fromChainId) "SWAP" s2 p0).1
            rw [hsp] at hm
            simp only [SendOut.trace] at hm
            rcases hm x hx with h1 | h1 | h1 | h1 | h1 | ⟨a, h1⟩ | ⟨b, h1⟩ <;>
              subst h1 <;> exact ⟨by simp, by simp⟩
          · subst hx
            exact ⟨by simp, by simp⟩
          · subst hx
            exact ⟨by simp, by simp⟩
        · have hpid : p3.ident = "SWAP" := (sendPhase_master env allow false
            (env.getChainById s.fromChainId) "SWAP" s2 p0).2 s3 p3 tr hsp hp0id
          simp only [receivingPhase, Bool.false_eq_true, if_false,
            List.mem_append, List.mem_cons, List.not_mem_nil, or_false] at hx
          rcases hx with (hx | hx) | hx
          · subst hx
            exact ⟨by simp, by simp⟩
          · have hm := (sendPhase_master env allow false
              (env.getChainById s.fromChainId) "SWAP" s2 p0).1
            rw [hsp] at hm
            simp only [SendOut.trace] at hm
            rcases hm x hx with h1 | h1 | h1 | h1 | h1 | ⟨a, h1⟩ | ⟨b, h1⟩ <;>
              subst h1 <;> exact ⟨by simp, by simp⟩
          · rcases receivingCore_mem env (env.getChainById s.toChainId)
              p3.txHash p3 s3 [] x hx with h1 | ⟨a, h1⟩ | ⟨b, h1⟩ | ⟨b, h1⟩
            · simp at h1
            · subst h1
              exact ⟨by simp, by simp⟩
            · subst h1
              rw [hpid]
              exact ⟨by simp, by simp⟩
            · subst h1
              exact ⟨by simp, by simp⟩
      · simp only [hD, if_false] at hx
        simp only [receivingPhase, Bool.false_eq_true, if_false,
          List.mem_append, List.mem_cons, List.not_mem_nil, or_false] at hx
        rcases hx with hx | hx
        · subst hx
          exact ⟨by simp, by simp⟩
        · rcases receivingCore_mem env (env.getChainById s.toChainId)
            p0.txHash p0 s2 [] x hx with h1 | ⟨a, h1⟩ | ⟨b, h1⟩ | ⟨b, h1⟩
          · simp at h1
          · subst h1
            exact ⟨by simp, by simp⟩
          · subst h1
            rw [hp0id]
            exact ⟨by simp, by simp⟩
          · subst h1
            exact ⟨by simp, by simp⟩
    exact ⟨fun i hx => (key _ hx).1 i rfl, fun i hx => (key _ hx).2 i rfl⟩
  · intro env s p0 s2 d h sr hsingle hIS h0 hD hb hreq hhook hsend hconf hrecv
    have hib : ((env.getChainById s.fromChainId).id
        != (env.getChainById s.toChainId).id) = false := by simp [hsingle]
    have hpt : processType env s = "SWAP" := by
      unfold processType
      rw [hib]
      simp
    have hDb : (p0.status != ProcessStatus.DONE) = true := by
      simpa [bne_iff_ne] using hD
    have hs2req : s2.transactionRequest = some { data := some d } := by
      have h2 := congrArg (fun z : Process × Step => z.2.transactionRequest) hIS
      dsimp only at h2
      rw [show (initialSendState env s).2.transactionRequest
          = s.transactionRequest from rfl] at h2
      rw [← h2]
      exact hreq
    simp only [SolanaStepExecutor.executeStep, hIS, hib, hpt, hDb, if_true,
      sendPhase, h0, hb, transactionRequest_updateProcessS, hs2req,
      afterReconcile, Option.bind, hhook, hsend, confirmPart, hconf,
      Bool.false_eq_true, Bool.true_eq_false, if_false, receivingPhase]
    rw [updateProcessS_fst_txHash _ _ _ _ h rfl]
    simp only [receivingCore, hrecv, updateProcessS_fst_ident]
    refine ⟨by simp, ?_, rfl⟩
    rw [processStatus_updateExecutionS]
    exact processStatus_updateProcessS_self _ _ _ _

/-- C4 witness: the amended single-chain behaviour on the concrete successful
single-chain run. -/
theorem claim_C4_witness :
    ((∀ i, Event.findProcess "RECEIVING_CHAIN" i ∉
        (SolanaStepExecutor.executeStep solEnvA true solStep1).trace) ∧
     (∀ i, Event.setProcess "RECEIVING_CHAIN" i ∉
        (SolanaStepExecutor.executeStep solEnvA true solStep1).trace)) ∧
    ((SolanaStepExecutor.executeStep solEnvA true solStep1).trace
      = [Event.findProcess "SWAP" ProcessStatus.STARTED,
         Event.setProcess "SWAP" ProcessStatus.STARTED,
         Event.balanceCheck,
         Event.setProcess "SWAP" ProcessStatus.ACTION_REQUIRED,
         Event.send,
         Event.setProcess "SWAP" ProcessStatus.PENDING,
         Event.confirm "sh",
         Event.waitReceiving "sh",
         Event.setProcess "SWAP" ProcessStatus.DONE,
         Event.setExecution ExecStatus.DONE] ∧
     (SolanaStepExecutor.executeStep solEnvA true solStep1).finalStep.processStatus
        "SWAP" = some ProcessStatus.DONE ∧
     ((SolanaStepExecutor.executeStep solEnvA true solStep1).finalStep.exec).status
        = ExecStatus.DONE) := by
  constructor
  · exact claim_C4.1 solEnvA true solStep1 rfl
  · exact claim_C4.2 solEnvA solStep1 _ _ "d" "sh"
      { status := "DONE"
        sendingAmount := some "5"
        receivingAmount := some "4"
        receivingTxHash := some "rh" }
      rfl rfl rfl (by decide) rfl rfl rfl rfl rfl rfl

/-- C5: a transaction payload that is absent when the gate is reached always
yields a TransactionUnprepared failure before any signing-agent send call:
(i) the Solana executor when the cached request has no data, (ii) the Solana
executor when there is no cached request and the reconciled step has no
payload, (iii) the Solana executor when the customization hook overrides the
payload with an undefined one, and (iv) the EVM executor when the quote
service returns no transactionRequest (its phase fails with the
"Unable to prepare Transaction" message). -/
theorem claim_C5 :
    (∀ (env : SolanaEnv) (allow : Bool) (s : Step) (p0 : Process) (s2 : Step),
      initialSendState env s = (p0, s2) →
      p0.txHash = none →
      p0.status ≠ ProcessStatus.DONE →
      env.balanceResult = Except.ok () →
      s.transactionRequest = some { data := none } →
      (SolanaStepExecutor.executeStep env allow s).result
        = Except.error
            { code := LiFiErrorCode.TransactionUnprepared
              message := "Unable to prepare transaction."
              htmlMessage := none } ∧
      (SolanaStepExecutor.executeStep env allow s).finalStep.processStatus
          (processType env s) = some ProcessStatus.FAILED ∧
      (SolanaStepExecutor.executeStep env allow s).finalStep.processError
          (processType env s)
        = some
            { code := LiFiErrorCode.TransactionUnprepared
              message := "Unable to prepare transaction."
              htmlMessage := none } ∧
      Event.send ∉ (SolanaStepExecutor.executeStep env allow s).trace) ∧
    (∀ (env : SolanaEnv) (allow : Bool) (s : Step) (p0 : Process) (s2 : Step)
      (compared : Step),
      initialSendState env s = (p0, s2) →
      p0.txHash = none →
      p0.status ≠ ProcessStatus.DONE →
      env.balanceResult = Except.ok () →
      s.transactionRequest = none →
      (∃ u, env.getStepTransactionResult = Except.ok u) →
      env.stepComparisonResult = Except.ok compared →
      compared.transactionRequest.bind TransactionRequest.data = none →
      (SolanaStepExecutor.executeStep env allow s).result
        = Except.error
            { code := LiFiErrorCode.TransactionUnprepared
              message := "Unable to prepare transaction."
              htmlMessage := none } ∧
      (SolanaStepExecutor.executeStep env allow s).finalStep.processStatus
          (processType env s) = some ProcessStatus.FAILED ∧
      Event.send ∉ (SolanaStepExecutor.executeStep env allow s).trace) ∧
    (∀ (env : SolanaEnv) (s : Step) (p0 : Process) (s2 : Step) (d : String)
      (hr : HookResult),
      initialSendState env s = (p0, s2) →
      p0.txHash = none →
      p0.status ≠ ProcessStatus.DONE →
      env.balanceResult = Except.ok () →
      s.transactionRequest = some { data := some d } →
      env.hook = some hr →
      hr.data = some none →
      (SolanaStepExecutor.executeStep env true s).result
        = Except.error
            { code := LiFiErrorCode.TransactionUnprepared
              message := "Unable to prepare transaction."
              htmlMessage := none } ∧
      (SolanaStepExecutor.executeStep env true s).finalStep.processStatus
          (processType env s) = some ProcessStatus.FAILED ∧
      Event.send ∉ (SolanaStepExecutor.executeStep env true s).trace) ∧
    (∀ (env : MultichainEnv) (sc : Bool) (st : MStep) (cp : Process)
      (ex1 : Execution),
      findOrCreateProcess (initExecutionObject st.execution) "crossProcess"
          ProcessStatus.STARTED = (cp, ex1) →
      cp.txHash = none →
      env.allowanceResult = Except.ok () →
      env.balanceResult = Except.ok () →
      env.getStepTransactionResult = Except.ok none →
      (MultichainExecutionManager.execute env sc st).result
        = Except.error
            (MError.err
              { code := LiFiErrorCode.Other 0
                message := "Unable to prepare Transaction"
                htmlMessage := none }) ∧
      (MultichainExecutionManager.execute env sc st).finalStep.processStatus
          "crossProcess" = some ProcessStatus.FAILED ∧
      (MultichainExecutionManager.execute env sc st).finalStep.processErrorMessage
          "crossProcess" = some "Unable to prepare Transaction" ∧
      Event.send ∉ (MultichainExecutionManager.execute env sc st).trace) := by
  refine ⟨?_, ?_, ?_, ?_⟩
  · intro env allow s p0 s2 hIS h0 hD hb hreq
    have hDb : (p0.status != ProcessStatus.DONE) = true := by
      simpa [bne_iff_ne] using hD
    have hs2req : s2.transactionRequest = some { data := none } := by
      have h2 := congrArg (fun z : Process × Step => z.2.transactionRequest) hIS
      dsimp only at h2
      rw [show (initialSendState env s).2.transactionRequest
          = s.transactionRequest from rfl] at h2
      rw [← h2]
      exact hreq
    simp only [SolanaStepExecutor.executeStep, hIS, hDb, if_true, sendPhase, h0,
      hb, transactionRequest_updateProcessS, hs2req, afterReconcile,
      Option.bind, parseError]
    refine ⟨by trivial, ?_, ?_, by simp⟩
    · rw [processStatus_updateExecutionS]
      exact processStatus_updateProcessS_self _ _ _ _
    · rw [processError_updateExecutionS]
      exact processError_updateProcessS_self _ _ _ _ _ rfl
  · intro env allow s p0 s2 compared hIS h0 hD hb hreq hg hc hcmp
    obtain ⟨u, hg⟩ := hg
    have hDb : (p0.status != ProcessStatus.DONE) = true := by
      simpa [bne_iff_ne] using hD
    have hs2req : s2.transactionRequest = none := by
      have h2 := congrArg (fun z : Process × Step => z.2.transactionRequest) hIS
      dsimp only at h2
      rw [show (initialSendState env s).2.transactionRequest
          = s.transactionRequest from rfl] at h2
      rw [← h2]
      exact hreq
    simp only [SolanaStepExecutor.executeStep, hIS, hDb, if_true, sendPhase, h0,
      hb, transactionRequest_updateProcessS, hs2req, hg, hc, afterReconcile,
      transactionRequest_adoptComparedStep, hcmp, parseError]
    refine ⟨by trivial, ?_, by simp⟩
    rw [processStatus_updateExecutionS]
    exact processStatus_updateProcessS_self _ _ _ _
  · intro env s p0 s2 d hr hIS h0 hD hb hreq hhook hhr
    have hDb : (p0.status != ProcessStatus.DONE) = true := by
      simpa [bne_iff_ne] using hD
    have hs2req : s2.transactionRequest = some { data := some d } := by
      have h2 := congrArg (fun z : Process × Step => z.2.transactionRequest) hIS
      dsimp only at h2
      rw [show (initialSendState env s).2.transactionRequest
          = s.transactionRequest from rfl] at h2
      rw [← h2]
      exact hreq
    simp only [SolanaStepExecutor.executeStep, hIS, hDb, if_true, sendPhase, h0,
      hb, transactionRequest_updateProcessS, hs2req, afterReconcile,
      Option.bind, hhook, hhr, Bool.true_eq_false, Bool.false_eq_true, if_false,
      parseError]
    refine ⟨by trivial, ?_, by simp⟩
    rw [processStatus_updateExecutionS]
    exact processStatus_updateProcessS_self _ _ _ _
  · intro env sc st cp ex1 hI h0 hal hb hg
    by_cases hA : allowanceRequired st = true <;>
      simp only [MultichainExecutionManager.execute, afterAllowance, hA, hal,
        hI, sendTry, h0, hb, hg, if_true, if_false, Bool.false_eq_true] <;>
      rw [updateProcess_fst_errorMessage _ _ _ _ "Unable to prepare Transaction" rfl] <;>
      simp only [parseWalletError] <;>
      refine ⟨by trivial, ?_, ?_, by simp⟩ <;>
      simp only [MStep.processStatus, MStep.processErrorMessage,
        initExecutionObject_some, execProcessStatus_updateExecution,
        execProcessErrorMessage_updateExecution]
    · exact execProcessStatus_updateProcess_self _ _ _ _
    · exact execProcessErrorMessage_updateProcess_self _ _ _ _ _ rfl
    · exact execProcessStatus_updateProcess_self _ _ _ _
    · exact execProcessErrorMessage_updateProcess_self _ _ _ _ _ rfl

/-- C5 witness: the four unprepared-payload paths on concrete runs. -/
theorem claim_C5_witness :
    ((SolanaStepExecutor.executeStep solEnvA true solStepNoData).result
        = Except.error
            { code := LiFiErrorCode.TransactionUnprepared
              message := "Unable to prepare transaction."
              htmlMessage := none } ∧
      (SolanaStepExecutor.executeStep solEnvA true solStepNoData).finalStep.processStatus
          (processType solEnvA solStepNoData) = some ProcessStatus.FAILED ∧
      (SolanaStepExecutor.executeStep solEnvA true solStepNoData).finalStep.processError
          (processType solEnvA solStepNoData)
        = some
            { code := LiFiErrorCode.TransactionUnprepared
              message := "Unable to prepare transaction."
              htmlMessage := none } ∧
      Event.send ∉ (SolanaStepExecutor.executeStep solEnvA true solStepNoData).trace) ∧
    ((SolanaStepExecutor.executeStep solEnvA true solStepBare).result
        = Except.error
            { code := LiFiErrorCode.TransactionUnprepared
              message := "Unable to prepare transaction."
              htmlMessage := none } ∧
      (SolanaStepExecutor.executeStep solEnvA true solStepBare).finalStep.processStatus
          (processType solEnvA solStepBare) = some ProcessStatus.FAILED ∧
      Event.send ∉ (SolanaStepExecutor.executeStep solEnvA true solStepBare).trace) ∧
    ((SolanaStepExecutor.executeStep solEnvHookNoData true solStep1).result
        = Except.error
            { code := LiFiErrorCode.TransactionUnprepared
              message := "Unable to prepare transaction."
              htmlMessage := none } ∧
      (SolanaStepExecutor.executeStep solEnvHookNoData true solStep1).finalStep.processStatus
          (processType solEnvHookNoData solStep1) = some ProcessStatus.FAILED ∧
      Event.send ∉ (SolanaStepExecutor.executeStep solEnvHookNoData true solStep1).trace) ∧
    ((MultichainExecutionManager.execute mEnvNoTx true mStepFresh).result
        = Except.error
            (MError.err
              { code := LiFiErrorCode.Other 0
                message := "Unable to prepare Transaction"
                htmlMessage := none }) ∧
      (MultichainExecutionManager.execute mEnvNoTx true mStepFresh).finalStep.processStatus
          "crossProcess" = some ProcessStatus.FAILED ∧
      (MultichainExecutionManager.execute mEnvNoTx true mStepFresh).finalStep.processErrorMessage
          "crossProcess" = some "Unable to prepare Transaction" ∧
      Event.send ∉ (MultichainExecutionManager.execute mEnvNoTx true mStepFresh).trace) := by
  refine ⟨?_, ?_, ?_, ?_⟩
  · exact claim_C5.1 solEnvA true solStepNoData _ _ rfl rfl (by decide) rfl rfl
  · exact claim_C5.2.1 solEnvA true solStepBare _ _
      { fromChainId := 9, toChainId := 9 } rfl rfl (by decide) rfl rfl
      ⟨{ fromChainId := 9, toChainId := 9 }, rfl⟩ rfl rfl
  · exact claim_C5.2.2.1 solEnvHookNoData solStep1 _ _ "d" { data := some none }
      rfl rfl (by decide) rfl rfl rfl rfl
  · exact claim_C5.2.2.2 mEnvNoTx true mStepFresh _ _ rfl rfl rfl rfl rfl

/-- C6 counterexample: a failure of receipt parsing (multichain.parseReceipt
at line 142, outside any try block) propagates to the caller while the overall
Execution is still PENDING and no Process was marked FAILED for it — refuting
the claim that every propagated failure is recorded as FAILED before the
rethrow. -/
theorem claim_C6_counterexample :
    (MultichainExecutionManager.execute mEnvParseFail true mStepFresh).result
      = Except.error (MError.err { code := LiFiErrorCode.Other 1, message := "boom" }) ∧
    (initExecutionObject
      (MultichainExecutionManager.execute mEnvParseFail true mStepFresh).finalStep.execution).status
      = ExecStatus.PENDING := by
  decide

/-- C6 (amended): every failure raised inside the guarded regions is recorded
before the rethrow — the Solana executor marks the relevant Process FAILED
(with the classified error attached) and the Execution FAILED on every error
it propagates; the EVM executor does the same provided the failure does not
come from its unguarded allowance check or receipt parsing, which propagate
without any FAILED marking. -/
theorem claim_C6 :
    (∀ (env : SolanaEnv) (allow : Bool) (s : Step) (e : LifiError),
      (SolanaStepExecutor.executeStep env allow s).result = Except.error e →
      (((SolanaStepExecutor.executeStep env allow s).finalStep.exec).status
          = ExecStatus.FAILED ∧
       ∃ q ∈ ((SolanaStepExecutor.executeStep env allow s).finalStep.exec).process,
         q.status = ProcessStatus.FAILED ∧ q.error.isSome)) ∧
    (∀ (env : MultichainEnv) (sc : Bool) (st : MStep) (e : MError),
      env.allowanceResult = Except.ok () →
      (∃ pr, env.parseReceiptResult = Except.ok pr) →
      (MultichainExecutionManager.execute env sc st).result = Except.error e →
      ((initExecutionObject
          (MultichainExecutionManager.execute env sc st).finalStep.execution).status
          = ExecStatus.FAILED ∧
       ∃ q ∈ (initExecutionObject
          (MultichainExecutionManager.execute env sc st).finalStep.execution).process,
         q.status = ProcessStatus.FAILED ∧ q.errorMessage.isSome)) := by
  constructor
  · intro env allow s e herr
    rcases hIS : initialSendState env s with ⟨p0, s2⟩
    simp only [SolanaStepExecutor.executeStep, hIS] at herr ⊢
    rcases hD : p0.status != ProcessStatus.DONE with _ | _ <;>
      simp only [hD, if_true, Bool.false_eq_true, if_false] at herr ⊢
    · exact receivingPhase_error env _ _ s2 p0 e herr
    · rcases hsp : sendPhase env allow
          ((env.getChainById s.fromChainId).id != (env.getChainById s.toChainId).id)
          (env.getChainById s.fromChainId) (processType env s) s2 p0 with
        ⟨s3, tr⟩ | ⟨e2, s3, tr⟩ | ⟨s3, p3, tr⟩ <;> simp only [hsp] at herr ⊢
      · simp at herr
      · exact ⟨failedMark_status _ _ _, failedMark_mem _ _ _⟩
      · exact receivingPhase_error env _ _ s3 p3 e herr
  · intro env sc st e hal hpr herr
    by_cases hA : allowanceRequired st = true <;>
      simp only [MultichainExecutionManager.execute, afterAllowance, hA, hal,
        if_true, if_false, Bool.false_eq_true] at herr ⊢ <;>
      rcases hst : sendTry env sc (env.getChainById st.fromChainId)
          (findOrCreateProcess (initExecutionObject st.execution) "crossProcess"
            ProcessStatus.STARTED).1
          (findOrCreateProcess (initExecutionObject st.execution) "crossProcess"
            ProcessStatus.STARTED).2 with
        ⟨ex2, tr⟩ | ⟨e2, ex2, tr⟩ | ⟨ex2, tr⟩ <;> simp only [hst] at herr ⊢
    · simp at herr
    · rcases e2 with rh | le | m
      · exact afterSend_error _ _ _ _ _ e hpr herr
      · exact ⟨mFailedMark_status _ _ _, mFailedMark_mem _ _ _ _ rfl⟩
      · exact ⟨mFailedMark_status _ _ _, mFailedMark_mem _ _ _ _ rfl⟩
    · exact afterSend_error _ _ _ _ _ e hpr herr
    · simp at herr
    · rcases e2 with rh | le | m
      · exact afterSend_error _ _ _ _ _ e hpr herr
      · exact ⟨mFailedMark_status _ _ _, mFailedMark_mem _ _ _ _ rfl⟩
      · exact ⟨mFailedMark_status _ _ _, mFailedMark_mem _ _ _ _ rfl⟩
    · exact afterSend_error _ _ _ _ _ e hpr herr

/-- C6 witness: a concrete balance failure on the Solana executor and a
concrete destination-wait failure on the EVM executor are both recorded as
FAILED before the rethrow. -/
theorem claim_C6_witness :
    ((((SolanaStepExecutor.executeStep solEnvBalFail true solStep1).finalStep.exec).status
        = ExecStatus.FAILED ∧
      ∃ q ∈ ((SolanaStepExecutor.executeStep solEnvBalFail true solStep1).finalStep.exec).process,
        q.status = ProcessStatus.FAILED ∧ q.error.isSome)) ∧
    (((initExecutionObject
        (MultichainExecutionManager.execute mEnvDestFail true mStepFresh).finalStep.execution).status
        = ExecStatus.FAILED ∧
      ∃ q ∈ (initExecutionObject
        (MultichainExecutionManager.execute mEnvDestFail true mStepFresh).finalStep.execution).process,
        q.status = ProcessStatus.FAILED ∧ q.errorMessage.isSome)) := by
  constructor
  · exact claim_C6.1 solEnvBalFail true solStep1
      { code := LiFiErrorCode.InsufficientFunds, message := "insufficient" } rfl
  · exact claim_C6.2 mEnvDestFail true mStepFresh
      (MError.err { code := LiFiErrorCode.Other 2, message := "dest" }) rfl
      ⟨{ fromAmount := some "1", toAmount := some "2" }, rfl⟩ rfl

/-- C7: a failing balance check immediately fails the send phase with the
InsufficientFunds-class error: the Process is set FAILED with the error
attached, the Execution is set FAILED, the error is rethrown, the signing
agent's send is never called, and the balance check runs exactly once (no
automatic retry) — for both executors. -/
theorem claim_C7 :
    (∀ (env : SolanaEnv) (allow : Bool) (s : Step) (p0 : Process) (s2 : Step)
      (m : String) (hm : Option String),
      initialSendState env s = (p0, s2) →
      p0.txHash = none →
      p0.status ≠ ProcessStatus.DONE →
      env.balanceResult = Except.error
        { code := LiFiErrorCode.InsufficientFunds, message := m, htmlMessage := hm } →
      (SolanaStepExecutor.executeStep env allow s).result
        = Except.error
            { code := LiFiErrorCode.InsufficientFunds, message := m, htmlMessage := hm } ∧
      (SolanaStepExecutor.executeStep env allow s).finalStep.processStatus
          (processType env s) = some ProcessStatus.FAILED ∧
      (SolanaStepExecutor.executeStep env allow s).finalStep.processError
          (processType env s)
        = some { code := LiFiErrorCode.InsufficientFunds, message := m, htmlMessage := hm } ∧
      ((SolanaStepExecutor.executeStep env allow s).finalStep.exec).status
        = ExecStatus.FAILED ∧
      Event.send ∉ (SolanaStepExecutor.executeStep env allow s).trace ∧
      List.count Event.balanceCheck
        (SolanaStepExecutor.executeStep env allow s).trace = 1) ∧
    (∀ (env : MultichainEnv) (sc : Bool) (st : MStep) (cp : Process)
      (ex1 : Execution) (le : LifiError),
      findOrCreateProcess (initExecutionObject st.execution) "crossProcess"
          ProcessStatus.STARTED = (cp, ex1) →
      cp.txHash = none →
      env.allowanceResult = Except.ok () →
      env.balanceResult = Except.error (MError.err le) →
      le.code = LiFiErrorCode.InsufficientFunds →
      (MultichainExecutionManager.execute env sc st).result
        = Except.error (MError.err le) ∧
      (MultichainExecutionManager.execute env sc st).finalStep.processStatus
          "crossProcess" = some ProcessStatus.FAILED ∧
      (MultichainExecutionManager.execute env sc st).finalStep.processErrorCode
          "crossProcess" = some LiFiErrorCode.InsufficientFunds ∧
      (initExecutionObject
        (MultichainExecutionManager.execute env sc st).finalStep.execution).status
        = ExecStatus.FAILED ∧
      Event.send ∉ (MultichainExecutionManager.execute env sc st).trace ∧
      List.count Event.balanceCheck
        (MultichainExecutionManager.execute env sc st).trace = 1) := by
  constructor
  · intro env allow s p0 s2 m hm hIS h0 hD hb
    have hDb : (p0.status != ProcessStatus.DONE) = true := by
      simpa [bne_iff_ne] using hD
    simp only [SolanaStepExecutor.executeStep, hIS, hDb, if_true, sendPhase, h0,
      hb, parseError]
    refine ⟨by trivial, ?_, ?_, rfl, by simp, ?_⟩
    · rw [processStatus_updateExecutionS]
      exact processStatus_updateProcessS_self _ _ _ _
    · rw [processError_updateExecutionS]
      exact processError_updateProcessS_self _ _ _ _ _ rfl
    · simp [List.count_cons, List.count_append]
  · intro env sc st cp ex1 le hI h0 hal hb hcode
    by_cases hA : allowanceRequired st = true <;>
      simp only [MultichainExecutionManager.execute, afterAllowance, hA, hal,
        hI, sendTry, h0, hb, if_true, if_false, Bool.false_eq_true,
        parseWalletError] <;>
      refine ⟨by trivial, ?_, ?_, rfl, by simp, ?_⟩
    · simp only [MStep.processStatus, initExecutionObject_some,
        execProcessStatus_updateExecution]
      exact execProcessStatus_updateProcess_self _ _ _ _
    · simp only [MStep.processErrorCode, initExecutionObject_some,
        execProcessErrorCode_updateExecution]
      rw [execProcessErrorCode_updateProcess_self _ _ _ _ le.code rfl, hcode]
    · simp [List.count_cons, List.count_append]
    · simp only [MStep.processStatus, initExecutionObject_some,
        execProcessStatus_updateExecution]
      exact execProcessStatus_updateProcess_self _ _ _ _
    · simp only [MStep.processErrorCode, initExecutionObject_some,
        execProcessErrorCode_updateExecution]
      rw [execProcessErrorCode_updateProcess_self _ _ _ _ le.code rfl, hcode]
    · simp [List.count_cons, List.count_append]

/-- C7 witness: the concrete balance failures on both executors. -/
theorem claim_C7_witness :
    ((SolanaStepExecutor.executeStep solEnvBalFail true solStep1).result
        = Except.error
            { code := LiFiErrorCode.InsufficientFunds, message := "insufficient"
              htmlMessage := none } ∧
      (SolanaStepExecutor.executeStep solEnvBalFail true solStep1).finalStep.processStatus
          (processType solEnvBalFail solStep1) = some ProcessStatus.FAILED ∧
      (SolanaStepExecutor.executeStep solEnvBalFail true solStep1).finalStep.processError
          (processType solEnvBalFail solStep1)
        = some { code := LiFiErrorCode.InsufficientFunds, message := "insufficient"
                 htmlMessage := none } ∧
      ((SolanaStepExecutor.executeStep solEnvBalFail true solStep1).finalStep.exec).status
        = ExecStatus.FAILED ∧
      Event.send ∉ (SolanaStepExecutor.executeStep solEnvBalFail true solStep1).trace ∧
      List.count Event.balanceCheck
        (SolanaStepExecutor.executeStep solEnvBalFail true solStep1).trace = 1) ∧
    ((MultichainExecutionManager.execute mEnvBalFail true mStepFresh).result
        = Except.error (MError.err
            { code := LiFiErrorCode.InsufficientFunds, message := "no funds" }) ∧
      (MultichainExecutionManager.execute mEnvBalFail true mStepFresh).finalStep.processStatus
          "crossProcess" = some ProcessStatus.FAILED ∧
      (MultichainExecutionManager.execute mEnvBalFail true mStepFresh).finalStep.processErrorCode
          "crossProcess" = some LiFiErrorCode.InsufficientFunds ∧
      (initExecutionObject
        (MultichainExecutionManager.execute mEnvBalFail true mStepFresh).finalStep.execution).status
        = ExecStatus.FAILED ∧
      Event.send ∉ (MultichainExecutionManager.execute mEnvBalFail true mStepFresh).trace ∧
      List.count Event.balanceCheck
        (MultichainExecutionManager.execute mEnvBalFail true mStepFresh).trace = 1) := by
  constructor
  · exact claim_C7.1 solEnvBalFail true solStep1 _ _ "insufficient" none rfl rfl
      (by decide) rfl
  · exact claim_C7.2 mEnvBalFail true mStepFresh _ _
      { code := LiFiErrorCode.InsufficientFunds, message := "no funds" }
      rfl rfl rfl rfl rfl

/-- C8: a step replaced during quote reconciliation keeps the original
execution record: the adoption at lines 81-84 overwrites the compared step's
execution with the current one, and consequently the whole run is insensitive
to whatever execution record the reconciler's result carries. -/
theorem claim_C8 :
    (∀ (cur compared : Step),
      (adoptComparedStep cur compared).execution = cur.execution) ∧
    (∀ (env : SolanaEnv) (allow : Bool) (s compared : Step)
      (junk : Option Execution),
      SolanaStepExecutor.executeStep
        { env with stepComparisonResult := Except.ok compared } allow s
        = SolanaStepExecutor.executeStep
            { env with stepComparisonResult :=
                Except.ok { compared with execution := junk } } allow s) := by
  exact ⟨fun cur compared => rfl, fun env allow s compared junk => rfl⟩

/-- C9 counterexample: an Execution that has already reached the terminal
FAILED status is not immutable — re-invoking the executor on the step resumes
it and mutates the Execution all the way to DONE. -/
theorem claim_C9_counterexample :
    (solStepFailed.execution.map Execution.status) = some ExecStatus.FAILED ∧
    ((SolanaStepExecutor.executeStep solEnvA true solStepFailed).finalStep.execution.map
        Execution.status) = some ExecStatus.DONE := by
  decide

/-- C9 (amended): reaching DONE or FAILED does not freeze the Execution: the
executor only guards on the send-phase Process status. When that Process is
DONE the send phase is skipped — no balance check, no reconciliation, no
broadcast — but the receiving wait still runs and may mutate the Execution;
when it is FAILED the whole send phase re-executes. -/
theorem claim_C9 :
    ∀ (env : SolanaEnv) (allow : Bool) (s : Step) (p0 : Process) (s2 : Step),
      initialSendState env s = (p0, s2) →
      p0.status = ProcessStatus.DONE →
      Event.balanceCheck ∉ (SolanaStepExecutor.executeStep env allow s).trace ∧
      Event.getStepTransactionCall ∉
        (SolanaStepExecutor.executeStep env allow s).trace ∧
      Event.stepComparisonCall ∉
        (SolanaStepExecutor.executeStep env allow s).trace ∧
      Event.send ∉ (SolanaStepExecutor.executeStep env allow s).trace := by
  intro env allow s p0 s2 hIS hst
  have hDb : (p0.status != ProcessStatus.DONE) = false := by simp [hst]
  simp only [SolanaStepExecutor.executeStep, hIS, hDb, Bool.false_eq_true,
    if_false]
  have hrc := receivingPhase_core_free env (env.getChainById s.toChainId)
    ((env.getChainById s.fromChainId).id != (env.getChainById s.toChainId).id)
    s2 p0
  refine ⟨?_, ?_, ?_, ?_⟩ <;>
    simp [List.mem_append, hrc.1, hrc.2.1, hrc.2.2.1, hrc.2.2.2]

/-- C9 witness: the amended guard on a concrete step whose send Process is
already DONE. -/
theorem claim_C9_witness :
    Event.balanceCheck ∉ (SolanaStepExecutor.executeStep solEnvA true solStepDone).trace ∧
    Event.getStepTransactionCall ∉
      (SolanaStepExecutor.executeStep solEnvA true solStepDone).trace ∧
    Event.stepComparisonCall ∉
      (SolanaStepExecutor.executeStep solEnvA true solStepDone).trace ∧
    Event.send ∉ (SolanaStepExecutor.executeStep solEnvA true solStepDone).trace :=
  claim_C9 solEnvA true solStepDone _ _ rfl rfl

theorem afterAllowance_trace_prefix (env : MultichainEnv) (sc : Bool)
    (st : MStep) (fc tc : ChainMeta) (ex0 : Execution) (tr0 : List Event) :
    ∃ rest, (afterAllowance env sc st fc tc ex0 tr0).trace = tr0 ++ rest := by
  unfold afterAllowance
  rcases hst : sendTry env sc fc (findOrCreateProcess ex0 "crossProcess"
      ProcessStatus.STARTED).1 (findOrCreateProcess ex0 "crossProcess"
      ProcessStatus.STARTED).2 with ⟨ex2, tr⟩ | ⟨e2, ex2, tr⟩ | ⟨ex2, tr⟩ <;>
    simp only [hst]
  · exact ⟨[Event.findProcess "crossProcess" ProcessStatus.STARTED] ++ tr,
      List.append_assoc tr0 _ tr⟩
  · rcases e2 with rh | le | m
    · obtain ⟨rest, hr⟩ := afterSend_trace_prefix env st tc _
        (tr0 ++ [Event.findProcess "crossProcess" ProcessStatus.STARTED] ++ tr
          ++ [Event.setProcess "crossProcess" ProcessStatus.PENDING])
      exact ⟨[Event.findProcess "crossProcess" ProcessStatus.STARTED] ++ tr
          ++ [Event.setProcess "crossProcess" ProcessStatus.PENDING] ++ rest,
        by rw [hr]; simp [List.append_assoc]⟩
    · exact ⟨[Event.findProcess "crossProcess" ProcessStatus.STARTED] ++ tr
          ++ [Event.setProcess "crossProcess" ProcessStatus.FAILED,
              Event.setExecution ExecStatus.FAILED],
        by simp [List.append_assoc]⟩
    · exact ⟨[Event.findProcess "crossProcess" ProcessStatus.STARTED] ++ tr
          ++ [Event.setProcess "crossProcess" ProcessStatus.FAILED,
              Event.setExecution ExecStatus.FAILED],
        by simp [List.append_assoc]⟩
  · obtain ⟨rest, hr⟩ := afterSend_trace_prefix env st tc _
      (tr0 ++ [Event.findProcess "crossProcess" ProcessStatus.STARTED] ++ tr)
    exact ⟨[Event.findProcess "crossProcess" ProcessStatus.STARTED] ++ tr ++ rest,
      by rw [hr]; simp [List.append_assoc]⟩

theorem afterAllowance_no_allowanceCheck (env : MultichainEnv) (sc : Bool)
    (st : MStep) (fc tc : ChainMeta) (ex0 : Execution) (tr0 : List Event)
    (h0 : Event.allowanceCheck ∉ tr0) :
    Event.allowanceCheck ∉ (afterAllowance env sc st fc tc ex0 tr0).trace := by
  unfold afterAllowance
  rcases hst : sendTry env sc fc (findOrCreateProcess ex0 "crossProcess"
      ProcessStatus.STARTED).1 (findOrCreateProcess ex0 "crossProcess"
      ProcessStatus.STARTED).2 with ⟨ex2, tr⟩ | ⟨e2, ex2, tr⟩ | ⟨ex2, tr⟩ <;>
    simp only [hst]
  all_goals
    have htr : Event.allowanceCheck ∉ tr := by
      intro hmem
      have hm := sendTry_mem env sc fc _ _ Event.allowanceCheck
        (by rw [hst]; exact hmem)
      rcases hm with h | h | h | ⟨a, b, h⟩ | ⟨a, h⟩ | ⟨a, h⟩ <;> simp at h
  · simp [h0, htr]
  · rcases e2 with rh | le | m
    · exact afterSend_preserve_not _ _ _ _ _ _ (by simp [h0, htr]) (by simp)
        (by simp) (by simp) (by simp) (by simp)
    · simp [h0, htr]
    · simp [h0, htr]
  · exact afterSend_preserve_not _ _ _ _ _ _ (by simp [h0, htr]) (by simp)
      (by simp) (by simp) (by simp) (by simp)

/-- C10: the EVM executor checks token allowance exactly under the condition
of lines 33-37 — no crossProcess with a stored txHash yet and a non-native
source token — and when it does, the allowance check is the very first action
of the run, before the send phase begins; it is skipped when the token is
native or a txHash is already stored. -/
theorem claim_C10 :
    ∀ (env : MultichainEnv) (sc : Bool) (st : MStep),
      (Event.allowanceCheck ∈ (MultichainExecutionManager.execute env sc st).trace
        ↔ allowanceRequired st = true) ∧
      (allowanceRequired st = true →
        ∃ rest, (MultichainExecutionManager.execute env sc st).trace
          = Event.allowanceCheck :: rest) := by
  intro env sc st
  by_cases hA : allowanceRequired st = true
  · simp only [MultichainExecutionManager.execute, hA, if_true]
    rcases hal : env.allowanceResult with e | u <;> simp only [hal]
    · exact ⟨by simp [hA], fun _ => ⟨[], rfl⟩⟩
    · obtain ⟨rest, hr⟩ := afterAllowance_trace_prefix env sc st
        (env.getChainById st.fromChainId) (env.getChainById st.toChainId)
        (initExecutionObject st.execution) [Event.allowanceCheck]
      refine ⟨⟨fun _ => by simp [hA], fun _ => ?_⟩, fun _ => ⟨rest, by simpa using hr⟩⟩
      rw [hr]
      simp
  · have hA2 : allowanceRequired st = false := by
      revert hA
      cases allowanceRequired st <;> simp
    simp only [MultichainExecutionManager.execute, hA2, Bool.false_eq_true,
      if_false]
    refine ⟨⟨fun hmem => ?_, fun hh => hh.elim⟩, fun hh => hh.elim⟩
    exact absurd hmem (afterAllowance_no_allowanceCheck env sc st _ _ _ []
      (by simp))

/-- C10 witness: on a concrete ERC-20 step the allowance check is performed
first; its presence coincides with the allowance condition. -/
theorem claim_C10_witness :
    Event.allowanceCheck ∈
      (MultichainExecutionManager.execute mEnvA true mStepToken).trace ∧
    (∃ rest, (MultichainExecutionManager.execute mEnvA true mStepToken).trace
      = Event.allowanceCheck :: rest) :=
  ⟨(claim_C10 mEnvA true mStepToken).1.mpr (by decide),
   (claim_C10 mEnvA true mStepToken).2 (by decide)⟩

end Sdk



